import Mathlib

/-!
Verification of the unity-mcp bridge server transport layer.

Shallow embedding of `Server/src/transport/legacy/unity_connection.py`,
`Server/src/transport/legacy/port_discovery.py` and
`Server/src/transport/plugin_hub.py`.  Machine time is modelled with `Rat`
(all the constants involved — 0.05, 0.25, 2.0, 30.0 — are exactly
representable, and the code only adds, subtracts and compares them).
-/

namespace UnityMcp

/-- One discovered Unity editor instance (`models.models.UnityInstanceInfo`
as used by the transport layer).  `port` is optional because a status file
may omit `unity_port` yet still be kept during a reload window.
Heartbeat timestamps are rationals on a single monotonic timeline. -/
structure UnityInstanceInfo where
  id : String
  name : String
  path : String
  hash : String
  port : Option Int
  status : String
  lastHeartbeat : Option Rat
  unityVersion : Option String
  deriving Repr, DecidableEq

/-- Structured failures of `UnityConnectionPool._resolve_instance_id`
(`ConnectionError` messages, modelled with their structured content). -/
inductive ResolveError where
  | noInstances
  | ambiguousName (identifier : String) (candidateIds : List String)
  | ambiguousHash (identifier : String) (candidateIds : List String)
  | notFound (identifier : String) (availableIds : List String)
  deriving Repr, DecidableEq

/-! ### Executable string helpers

Character-list implementations of the Python string operations the
transport layer uses.  They are written over `String.data` so that every
definition in this file evaluates by kernel reduction. -/

/-- Python `s.strip()`: drop whitespace from both ends. -/
def pyStrip (s : String) : String :=
  ⟨((s.data.dropWhile Char.isWhitespace).reverse.dropWhile Char.isWhitespace).reverse⟩

/-- Python `s.startswith(pre)`. -/
def pyStartsWith (s pre : String) : Bool :=
  pre.data.isPrefixOf s.data

/-- Python `s.endswith(suf)`. -/
def pyEndsWith (s suf : String) : Bool :=
  suf.data.reverse.isPrefixOf s.data.reverse

/-- Split a character list at the first occurrence of `c`, when present. -/
def splitFirstChar (c : Char) : List Char → Option (List Char × List Char)
  | [] => none
  | x :: xs =>
    if x == c then some ([], xs)
    else
      match splitFirstChar c xs with
      | some (a, b) => some (x :: a, b)
      | none => none

/-- Python `identifier.split("@", 1)` when `"@" in identifier`. -/
def splitAtFirstAt (s : String) : Option (String × String) :=
  (splitFirstChar '@' s.data).map (fun p => (⟨p.1⟩, ⟨p.2⟩))

/-- Python `s.rpartition("@")` head/tail pair when `@` occurs: split at the
last occurrence. -/
def splitAtLastAt (s : String) : Option (String × String) :=
  (splitFirstChar '@' s.data.reverse).map
    (fun p => (⟨p.2.reverse⟩, ⟨p.1.reverse⟩))

/-- Digits of a decimal numeral, or `none` on a malformed one. -/
def digitsToNat? (l : List Char) : Option Nat :=
  if l.isEmpty then none
  else if l.all Char.isDigit then
    some (l.foldl (fun acc c => acc * 10 + (c.toNat - 48)) 0)
  else none

/-- Python `int(s)` on an already-stripped string (digit underscores of the
Python numeral grammar are not modelled; the transport never produces them). -/
def pyInt? (s : String) : Option Int :=
  match s.data with
  | '-' :: rest => (digitsToNat? rest).map (fun n => -(n : Int))
  | '+' :: rest => (digitsToNat? rest).map (fun n => (n : Int))
  | l => (digitsToNat? l).map (fun n => (n : Int))

/-- Decimal rendering of a natural number (fuel-based, fuel `n+1` ≥ digits). -/
def natDigitChars : Nat → Nat → List Char
  | 0, _ => []
  | fuel + 1, n =>
    if n = 0 then []
    else natDigitChars fuel (n / 10) ++ [Char.ofNat (48 + n % 10)]

/-- Python `str(n)` for an integer. -/
def intToStr (i : Int) : String :=
  match i with
  | .ofNat 0 => "0"
  | .ofNat n => ⟨natDigitChars (n + 1) n⟩
  | .negSucc m => ⟨'-' :: natDigitChars (m + 2) (m + 1)⟩

/-- Python `str(inst.port)` where `inst.port` is `int | None`. -/
def portStr : Option Int → String
  | some p => intToStr p
  | none => "None"

/-- Python `pat in s` (substring containment) on character lists. -/
def containsSub (pat : List Char) : List Char → Bool
  | [] => pat.isEmpty
  | x :: xs => pat.isPrefixOf (x :: xs) || containsSub pat xs

/-- Python `pat in s` for strings. -/
def pyContains (s pat : String) : Bool :=
  containsSub pat.data s.data

/-- Python `s.lower()` (ASCII case folding, which is all the transport
compares). -/
def pyLower (s : String) : String :=
  ⟨s.data.map (fun c => if 'A' ≤ c && c ≤ 'Z' then Char.ofNat (c.toNat + 32) else c)⟩

/-- Heartbeat sort key: `inst.last_heartbeat.timestamp() if ... else 0.0`. -/
def heartbeatKey (i : UnityInstanceInfo) : Rat :=
  i.lastHeartbeat.getD 0

/-- First instance with the maximal heartbeat key: the head of the stable
descending sort used by `_resolve_instance_id` when no identifier is given. -/
def mostRecentInstance (x : UnityInstanceInfo) (xs : List UnityInstanceInfo) :
    UnityInstanceInfo :=
  xs.foldl (fun acc i => if heartbeatKey i > heartbeatKey acc then i else acc) x

/-- `UnityConnectionPool._resolve_instance_id`, translated clause by clause
from `unity_connection.py` lines 480-588.  `defaultId` models the pool's
`_default_instance_id`. -/
def resolveInstanceId (defaultId : Option String)
    (instanceIdentifier : Option String) (instances : List UnityInstanceInfo) :
    Except ResolveError UnityInstanceInfo :=
  match instances with
  | [] => .error .noInstances
  | inst0 :: rest =>
    let identifier? : Option String :=
      match instanceIdentifier, defaultId with
      | some s, _ => some s
      | none, some d => some d
      | none, none => none
    match identifier? with
    | none => .ok (mostRecentInstance inst0 rest)
    | some raw =>
      let instances := inst0 :: rest
      let ident := pyStrip raw
      -- Try exact ID match first
      match instances.find? (fun i => i.id == ident) with
      | some i => .ok i
      | none =>
        -- Try project name match
        let nameMatches := instances.filter (fun i => i.name == ident)
        match nameMatches with
        | [i] => .ok i
        | _ :: _ :: _ => .error (.ambiguousName ident (nameMatches.map (·.id)))
        | [] =>
          -- Try hash match (exact or starts-with)
          let hashMatches := instances.filter
            (fun i => i.hash == ident || pyStartsWith i.hash ident)
          match hashMatches with
          | [i] => .ok i
          | _ :: _ :: _ => .error (.ambiguousHash ident (hashMatches.map (·.id)))
          | [] =>
            -- Try composite format Name@Hash or Name@Port
            let compositeHit : Option UnityInstanceInfo :=
              match splitAtFirstAt ident with
              | some (namePart, hintPart) =>
                match instances.filter (fun i => i.name == namePart &&
                    (pyStartsWith i.hash hintPart || portStr i.port == hintPart)) with
                | [i] => some i
                | _ => none
              | none => none
            match compositeHit with
            | some i => .ok i
            | none =>
              -- Try port match (identifier parsed as an integer)
              let portHit : Option UnityInstanceInfo :=
                match pyInt? ident with
                | some n =>
                  match instances.filter (fun i => i.port == some n) with
                  | [i] => some i
                  | _ => none
                | none => none
              match portHit with
              | some i => .ok i
              | none =>
                -- Try path match
                match instances.filter (fun i => i.path == ident) with
                | [i] => .ok i
                | _ => .error (.notFound ident (instances.map (·.id)))

/-! ### Spec-side resolution: the ordered precedence of §4.3

`resolveByOrderedSteps` restates the claimed algorithm literally: an ordered
list of precedence steps, the first step that produces an unambiguous match
(or a structured ambiguity failure) wins, and falling off the end fails with
a "not found" error listing every known instance id. -/

/-- Outcome of one precedence step: an unambiguous hit, a structured
ambiguity failure, or no decision (fall through to the next step). -/
inductive StepOutcome where
  | hit (i : UnityInstanceInfo)
  | fail (e : ResolveError)
  | pass
  deriving Repr, DecidableEq

/-- Step 2 of the spec: exact `id` match. -/
def idStep (instances : List UnityInstanceInfo) (ident : String) : StepOutcome :=
  match instances.find? (fun i => i.id == ident) with
  | some i => .hit i
  | none => .pass

/-- Step 3: exact project-name match; more than one match is an enumerated
ambiguity failure, never a silent resolution. -/
def nameStep (instances : List UnityInstanceInfo) (ident : String) : StepOutcome :=
  match instances.filter (fun i => i.name == ident) with
  | [] => .pass
  | [i] => .hit i
  | l => .fail (.ambiguousName ident (l.map (·.id)))

/-- Step 4: hash exact-or-starts-with match, same ambiguity policy. -/
def hashStep (instances : List UnityInstanceInfo) (ident : String) : StepOutcome :=
  match instances.filter (fun i => i.hash == ident || pyStartsWith i.hash ident) with
  | [] => .pass
  | [i] => .hit i
  | l => .fail (.ambiguousHash ident (l.map (·.id)))

/-- Step 5: composite `Name@HashOrPortHint` — name matches AND (hash starts
with the hint OR port equals the hint); only an unambiguous match wins. -/
def compositeStep (instances : List UnityInstanceInfo) (ident : String) : StepOutcome :=
  match splitAtFirstAt ident with
  | some (namePart, hintPart) =>
    match instances.filter (fun i => i.name == namePart &&
        (pyStartsWith i.hash hintPart || portStr i.port == hintPart)) with
    | [i] => .hit i
    | _ => .pass
  | none => .pass

/-- Step 6: a numeric identifier treated as a port. -/
def portNumStep (instances : List UnityInstanceInfo) (ident : String) : StepOutcome :=
  match pyInt? ident with
  | some n =>
    match instances.filter (fun i => i.port == some n) with
    | [i] => .hit i
    | _ => .pass
  | none => .pass

/-- Step 7: exact filesystem-path match. -/
def pathStep (instances : List UnityInstanceInfo) (ident : String) : StepOutcome :=
  match instances.filter (fun i => i.path == ident) with
  | [i] => .hit i
  | _ => .pass

/-- Run the precedence steps in order; the first non-pass outcome decides. -/
def runSteps (instances : List UnityInstanceInfo) (ident : String) :
    List (List UnityInstanceInfo → String → StepOutcome) →
    Except ResolveError UnityInstanceInfo
  | [] => .error (.notFound ident (instances.map (·.id)))
  | s :: rest =>
    match s instances ident with
    | .hit i => .ok i
    | .fail e => .error e
    | .pass => runSteps instances ident rest

/-- The claimed resolution algorithm of §4.3, as an ordered step list. -/
def resolveByOrderedSteps (instances : List UnityInstanceInfo) (ident : String) :
    Except ResolveError UnityInstanceInfo :=
  runSteps instances ident
    [idStep, nameStep, hashStep, compositeStep, portNumStep, pathStep]

/-! Concrete instance set `{A@h1, A@h2, B@h3}` from §8 of the spec. -/

def instA1 : UnityInstanceInfo :=
  ⟨"A@h1", "A", "/proj/A1", "h1", some 1001, "running", some 100, none⟩

def instA2 : UnityInstanceInfo :=
  ⟨"A@h2", "A", "/proj/A2", "h2", some 1002, "running", some 200, none⟩

def instB3 : UnityInstanceInfo :=
  ⟨"B@h3", "B", "/proj/B3", "h3", some 1003, "running", some 300, none⟩

def demoInstances : List UnityInstanceInfo := [instA1, instA2, instB3]

/-! ### C1: resolution follows the ordered precedence -/

theorem runSteps_path_eq (insts : List UnityInstanceInfo) (ident : String) :
    (match insts.filter (fun (i : UnityInstanceInfo) => i.path == ident) with
     | [i] => Except.ok i
     | _ => Except.error (ResolveError.notFound ident
         (insts.map (fun (i : UnityInstanceInfo) => i.id))))
    = runSteps insts ident [pathStep] := by
  rcases hpa : insts.filter (fun i => i.path == ident) with _ | ⟨c, _ | ⟨d, tl⟩⟩
  · simp only [runSteps, pathStep, hpa]
  · simp only [runSteps, pathStep, hpa]
  · simp only [runSteps, pathStep, hpa]

theorem runSteps_portPath_eq (insts : List UnityInstanceInfo) (ident : String) :
    (match (match pyInt? ident with
            | some n =>
              match insts.filter (fun (i : UnityInstanceInfo) => i.port == some n) with
              | [i] => some i
              | _ => none
            | none => none) with
     | some i => Except.ok i
     | none =>
       match insts.filter (fun (i : UnityInstanceInfo) => i.path == ident) with
       | [i] => Except.ok i
       | _ => Except.error (ResolveError.notFound ident
           (insts.map (fun (i : UnityInstanceInfo) => i.id))))
    = runSteps insts ident [portNumStep, pathStep] := by
  cases hp : pyInt? ident with
  | some n =>
    rcases hpm : insts.filter (fun i => i.port == some n) with _ | ⟨a, _ | ⟨b, tl⟩⟩
    · simp only [hp, hpm, runSteps, portNumStep]
      exact runSteps_path_eq insts ident
    · simp only [hp, hpm, runSteps, portNumStep]
    · simp only [hp, hpm, runSteps, portNumStep]
      exact runSteps_path_eq insts ident
  | none =>
    simp only [hp, runSteps, portNumStep]
    exact runSteps_path_eq insts ident

theorem resolve_follows_steps (i0 : UnityInstanceInfo) (r : List UnityInstanceInfo)
    (ident : String) (htrim : pyStrip ident = ident) :
    resolveInstanceId none (some ident) (i0 :: r) = resolveByOrderedSteps (i0 :: r) ident := by
  unfold resolveInstanceId resolveByOrderedSteps
  simp only [htrim]
  cases hf : (i0 :: r).find? (fun i => i.id == ident) with
  | some i => simp only [runSteps, idStep, hf]
  | none =>
    simp only [runSteps, idStep, hf]
    rcases hnm : (i0 :: r).filter (fun i => i.name == ident) with _ | ⟨a, _ | ⟨b, tl⟩⟩
    rotate_left
    · simp only [runSteps, nameStep, hnm]
    · simp only [runSteps, nameStep, hnm]
    · simp only [runSteps, nameStep, hnm]
      rcases hhm : (i0 :: r).filter (fun i => i.hash == ident || pyStartsWith i.hash ident) with
        _ | ⟨a, _ | ⟨b, tl⟩⟩
      rotate_left
      · simp only [runSteps, hashStep, hhm]
      · simp only [runSteps, hashStep, hhm]
      · simp only [runSteps, hashStep, hhm]
        cases hsp : splitAtFirstAt ident with
        | some p =>
          obtain ⟨namePart, hintPart⟩ := p
          rcases hcm : (i0 :: r).filter (fun i => i.name == namePart &&
              (pyStartsWith i.hash hintPart || portStr i.port == hintPart)) with
            _ | ⟨a, _ | ⟨b, tl⟩⟩
          rotate_left
          · simp only [runSteps, compositeStep, hsp, hcm]
          · simp only [runSteps, compositeStep, hsp, hcm]
            exact runSteps_portPath_eq (i0 :: r) ident
          · simp only [runSteps, compositeStep, hsp, hcm]
            exact runSteps_portPath_eq (i0 :: r) ident
        | none =>
          simp only [runSteps, compositeStep, hsp]
          exact runSteps_portPath_eq (i0 :: r) ident

/-- C1: instance resolution applies the ordered precedence of §4.3, first
unambiguous match winning — for every non-empty instance list and every
(whitespace-free) identifier the source resolver agrees with the ordered
step list `id, name (ambiguity enumerated), hash exact-or-starts-with
(same policy), composite Name@HashOrPortHint, numeric port, path, not-found
listing all ids`; and on `{A@h1, A@h2, B@h3}`: `"A"` is ambiguous with both
candidate ids enumerated, `"h1"` resolves to `A@h1`, `"B@h3"` resolves to
`B@h3`, and an unknown string fails listing all three ids. -/
theorem C1_instance_resolution_precedence :
    (∀ (i0 : UnityInstanceInfo) (r : List UnityInstanceInfo) (ident : String),
        pyStrip ident = ident →
        resolveInstanceId none (some ident) (i0 :: r) = resolveByOrderedSteps (i0 :: r) ident)
    ∧ resolveInstanceId none (some "A") demoInstances
        = .error (.ambiguousName "A" ["A@h1", "A@h2"])
    ∧ resolveInstanceId none (some "h1") demoInstances = .ok instA1
    ∧ resolveInstanceId none (some "B@h3") demoInstances = .ok instB3
    ∧ resolveInstanceId none (some "zzz") demoInstances
        = .error (.notFound "zzz" ["A@h1", "A@h2", "B@h3"]) :=
  ⟨fun i0 r ident htrim => resolve_follows_steps i0 r ident htrim,
   by rfl, by rfl, by rfl, by rfl⟩

/-- Witness for C1: the universally quantified refinement clause applied at
a concrete instance list and identifier. -/
theorem C1_instance_resolution_precedence_witness :
    pyStrip "h1" = "h1" ∧
    resolveInstanceId none (some "h1") (instA1 :: [instA2, instB3])
      = resolveByOrderedSteps (instA1 :: [instA2, instB3]) "h1" :=
  ⟨by rfl, C1_instance_resolution_precedence.1 instA1 [instA2, instB3] "h1" (by rfl)⟩

/-! ### Response envelopes and the reload-aware retry dispatcher -/

/-- The `data` dict of a busy envelope: the `reason` and `retry_after_ms`
keys the transport reads.  A `data` value that is present but not a dict is
modelled as `none`. -/
structure RespData where
  reason : Option String := none
  retryAfterMs : Option Int := none
  deriving Repr, DecidableEq

/-- Modelled from the spec: `models.models.MCPResponse` (its module is not
among the transport sources); §6 gives the envelope
`{success: bool, message?, error?, data?, hint?}`. -/
structure MCPResp where
  success : Bool
  message : Option String := none
  error : Option String := none
  hint : Option String := none
  data : Option RespData := none
  deriving Repr, DecidableEq

/-- A raw dict payload from Unity, restricted to the keys
`_extract_response_reason` and `send_command_with_retry` inspect:
`state`, `data` (dict), `message`, `error`, top-level `retry_after_ms`. -/
structure DictResp where
  state : Option String := none
  data : Option RespData := none
  message : Option String := none
  error : Option String := none
  retryAfterMs : Option Int := none
  deriving Repr, DecidableEq

/-- A response as seen by the retry helpers: either an `MCPResponse`
object or a raw dict. -/
inductive Resp where
  | mcp (r : MCPResp)
  | dict (d : DictResp)
  deriving Repr, DecidableEq

/-- Python `a or b or ""` on two optional strings (`None` and `""` are
falsy). -/
def firstTruthy (a b : Option String) : String :=
  match a with
  | some s => if s == "" then b.getD "" else s
  | none => b.getD ""

/-- `"reload" in message_text.lower()` collapsed to the `reloading` reason. -/
def reloadTextReason (text : String) : Option String :=
  if pyContains (pyLower text) "reload" then some "reloading" else none

/-- `_extract_response_reason` from `unity_connection.py` lines 689-719. -/
def extractResponseReason : Resp → Option String
  | .mcp r =>
    (match r.data with
     | some d =>
       match d.reason with
       | some reason => some (pyLower reason)
       | none => reloadTextReason ((r.message.getD "") ++ " " ++ (r.error.getD ""))
     | none => reloadTextReason ((r.message.getD "") ++ " " ++ (r.error.getD "")))
  | .dict d =>
    if d.state == some "reloading" then some "reloading"
    else
      match d.data with
      | some dd =>
        match dd.reason with
        | some reason => some (pyLower reason)
        | none => reloadTextReason (firstTruthy d.message d.error)
      | none => reloadTextReason (firstTruthy d.message d.error)

/-- `_is_reloading_response`. -/
def isReloadingResponse (r : Resp) : Bool :=
  extractResponseReason r == some "reloading"

/-- The `retry_after_ms` suggestion that `send_command_with_retry` reads
from a response: top-level key first, then `data.retry_after_ms`; only
dict responses are inspected (`isinstance(response, dict)`). -/
def responseRetryAfterMs : Resp → Option Int
  | .dict d =>
    (match d.retryAfterMs with
     | some v => some v
     | none =>
       match d.data with
       | some dd => dd.retryAfterMs
       | none => none)
  | .mcp _ => none

/-- Sleep performed before one resend: the suggested delay (or the
configured default) clamped to `[50, 250]` milliseconds, converted to
seconds — `time.sleep(max(0.0, max(50, min(delay_ms, 250)) / 1000.0))`. -/
def sleepFor (r : Resp) (retryMs : Int) : Rat :=
  max 0 (((max 50 (min ((responseRetryAfterMs r).getD retryMs) 250) : Int) : Rat) / 1000)

/-- The reload-wait `while` loop of `send_command_with_retry`
(`unity_connection.py` lines 772-809), with the monotonic clock advanced
only by `time.sleep`.  `responses idx` is the reply to the `idx`-th send.
Returns `(final response, final clock, wait_started, sleeps performed)`.
The fuel is `max_retries - retries`. -/
def reloadRetryLoop (responses : Nat → Resp) (retryMs : Int) (maxWaitS : Rat) :
    Nat → Nat → Resp → Rat → Option Rat → Resp × Rat × Option Rat × List Rat
  | 0, _, resp, now, ws => (resp, now, ws, [])
  | rem + 1, idx, resp, now, ws =>
    if isReloadingResponse resp then
      let ws' := ws.getD now
      if maxWaitS ≤ 0 then (resp, now, some ws', [])
      else if maxWaitS ≤ now - ws' then (resp, now, some ws', [])
      else
        let sleepS := sleepFor resp retryMs
        let r := reloadRetryLoop responses retryMs maxWaitS rem (idx + 1)
          (responses idx) (now + sleepS) (some ws')
        (r.1, r.2.1, r.2.2.1, sleepS :: r.2.2.2)
    else (resp, now, ws, [])

/-- The structured busy reply returned when the reload budget is exhausted
(`unity_connection.py` lines 820-828). -/
def reloadBusyResp (retryMs : Int) : Resp :=
  .mcp { success := false, error := some "Unity is reloading; please retry",
         hint := some "retry",
         data := some { reason := some "reloading",
                        retryAfterMs := some (min 250 (max 50 retryMs)) } }

/-- `send_command_with_retry` (lines 731-835): clamp the wall-clock budget
to `[0, 30]` seconds, run the reload-wait loop from the first response, and
map a still-reloading exhaustion to the structured busy reply.  Returns the
final response together with the sleeps performed between resends. -/
def sendCommandWithRetry (responses : Nat → Resp) (maxRetries : Nat) (retryMs : Int)
    (maxWaitRaw : Rat) : Resp × List Rat :=
  let maxWaitS : Rat := max 0 (min maxWaitRaw 30)
  let out := reloadRetryLoop responses retryMs maxWaitS maxRetries 1 (responses 0) 0 none
  match out.2.2.1 with
  | some _ =>
    if isReloadingResponse out.1 then (reloadBusyResp retryMs, out.2.2.2)
    else (out.1, out.2.2.2)
  | none => (out.1, out.2.2.2)


theorem sleepFor_bounds (r : Resp) (retryMs : Int) :
    1/20 ≤ sleepFor r retryMs ∧ sleepFor r retryMs ≤ 1/4 := by
  unfold sleepFor
  set d : Int := (responseRetryAfterMs r).getD retryMs with hd
  have h1 : (50 : Int) ≤ max 50 (min d 250) := le_max_left _ _
  have h2 : max 50 (min d 250) ≤ 250 := max_le (by norm_num) (min_le_right _ _)
  have h1q : (50 : Rat) ≤ ((max 50 (min d 250) : Int) : Rat) := by exact_mod_cast h1
  have h2q : ((max 50 (min d 250) : Int) : Rat) ≤ 250 := by exact_mod_cast h2
  constructor
  · rw [max_eq_right (by linarith)]
    linarith
  · rw [max_eq_right (by linarith)]
    linarith

/-- Position `j` of the response script as seen from a loop state holding
`resp` with next send index `idx`. -/
def scriptAt (responses : Nat → Resp) (resp : Resp) (idx : Nat) : Nat → Resp
  | 0 => resp
  | j + 1 => responses (idx + j)

theorem scriptAt_shift (responses : Nat → Resp) (resp : Resp) (idx j : Nat) :
    scriptAt responses (responses idx) (idx + 1) j = scriptAt responses resp idx (j + 1) := by
  cases j with
  | zero => rfl
  | succ j' => show responses (idx + 1 + j') = responses (idx + (j' + 1)); congr 1; omega

theorem loop_sleeps_get (responses : Nat → Resp) (retryMs : Int) (maxWaitS : Rat) :
    ∀ (fuel idx : Nat) (resp : Resp) (now : Rat) (ws : Option Rat) (j : Nat) (s : Rat),
      (reloadRetryLoop responses retryMs maxWaitS fuel idx resp now ws).2.2.2.get? j = some s →
      s = sleepFor (scriptAt responses resp idx j) retryMs := by
  intro fuel
  induction fuel with
  | zero => intro idx resp now ws j s h; simp [reloadRetryLoop] at h
  | succ f ih =>
    intro idx resp now ws j s h
    by_cases hr : isReloadingResponse resp
    · by_cases hw : maxWaitS ≤ 0
      · simp [reloadRetryLoop, hr, hw] at h
      · by_cases he : maxWaitS ≤ now - ws.getD now
        · simp [reloadRetryLoop, hr, hw, he] at h
        · simp only [reloadRetryLoop, hr, if_true, hw, if_false, he] at h
          cases j with
          | zero =>
            simp only [List.get?] at h
            cases h
            rfl
          | succ j' =>
            simp only [List.get?] at h
            rw [ih _ _ _ _ _ _ h]
            exact congrArg (fun r => sleepFor r retryMs) (scriptAt_shift responses resp idx j')
    · simp [reloadRetryLoop, hr] at h

theorem loop_over_budget_no_sleep (responses : Nat → Resp) (retryMs : Int) (maxWaitS : Rat)
    (fuel idx : Nat) (resp : Resp) (now : Rat) (w0 : Rat)
    (h : maxWaitS ≤ 0 ∨ maxWaitS ≤ now - w0) :
    (reloadRetryLoop responses retryMs maxWaitS fuel idx resp now (some w0)).2.2.2 = [] := by
  cases fuel with
  | zero => rfl
  | succ f =>
    by_cases hr : isReloadingResponse resp
    · rcases h with h | h
      · simp [reloadRetryLoop, hr, h]
      · by_cases hw : maxWaitS ≤ 0
        · simp [reloadRetryLoop, hr, hw]
        · simp [reloadRetryLoop, hr, hw, h]
    · simp [reloadRetryLoop, hr]

theorem loop_sum_bound (responses : Nat → Resp) (retryMs : Int) (maxWaitS : Rat) :
    ∀ (fuel idx : Nat) (resp : Resp) (now w0 : Rat),
      (reloadRetryLoop responses retryMs maxWaitS fuel idx resp now (some w0)).2.2.2.sum
        ≤ max 0 (maxWaitS - (now - w0)) + 1/4 := by
  intro fuel
  induction fuel with
  | zero =>
    intro idx resp now w0
    simp [reloadRetryLoop]
    positivity
  | succ f ih =>
    intro idx resp now w0
    by_cases hr : isReloadingResponse resp
    · by_cases hw : maxWaitS ≤ 0
      · simp only [reloadRetryLoop, hr, if_true, hw]
        simp
        positivity
      · by_cases he : maxWaitS ≤ now - w0
        · simp only [reloadRetryLoop, hr, if_true, hw, if_false]
          rw [if_pos (by simpa using he)]
          simp
          positivity
        · simp only [reloadRetryLoop, hr, if_true, hw, if_false]
          rw [if_neg (by simpa using he)]
          simp only [List.sum_cons, Option.getD_some]
          set s := sleepFor resp retryMs with hs
          have hsb := sleepFor_bounds resp retryMs
          by_cases hrest : maxWaitS ≤ now + s - w0
          · have hempty := loop_over_budget_no_sleep responses retryMs maxWaitS f (idx+1)
              (responses idx) (now + s) w0 (Or.inr hrest)
            rw [hempty]
            simp only [List.sum_nil, add_zero]
            have : (0:Rat) ≤ maxWaitS - (now - w0) := by linarith
            rw [max_eq_right this]
            linarith
          · have hb := ih (idx+1) (responses idx) (now + s) w0
            have h1 : (0:Rat) ≤ maxWaitS - (now + s - w0) := by linarith
            rw [max_eq_right h1] at hb
            have h2 : (0:Rat) ≤ maxWaitS - (now - w0) := by linarith
            rw [max_eq_right h2]
            linarith
    · simp only [reloadRetryLoop, hr, if_false]
      simp
      positivity

theorem loop_all_reloading_final (responses : Nat → Resp) (retryMs : Int) (maxWaitS : Rat)
    (hall : ∀ i, isReloadingResponse (responses i)) :
    ∀ (fuel idx : Nat) (resp : Resp) (now : Rat) (ws : Option Rat),
      isReloadingResponse resp →
      isReloadingResponse (reloadRetryLoop responses retryMs maxWaitS fuel idx resp now ws).1 := by
  intro fuel
  induction fuel with
  | zero => intro idx resp now ws hr; simp [reloadRetryLoop, hr]
  | succ f ih =>
    intro idx resp now ws hr
    by_cases hw : maxWaitS ≤ 0
    · simp [reloadRetryLoop, hr, hw]
    · by_cases he : maxWaitS ≤ now - ws.getD now
      · simp only [reloadRetryLoop, hr, if_true, hw, if_false]
        rw [if_pos (by simpa using he)]
        exact hr
      · simp only [reloadRetryLoop, hr, if_true, hw, if_false]
        rw [if_neg (by simpa using he)]
        exact ih (idx+1) (responses idx) _ _ (hall idx)

theorem loop_ws_some (responses : Nat → Resp) (retryMs : Int) (maxWaitS : Rat) :
    ∀ (fuel idx : Nat) (resp : Resp) (now : Rat) (w0 : Rat),
      (reloadRetryLoop responses retryMs maxWaitS fuel idx resp now (some w0)).2.2.1.isSome := by
  intro fuel
  induction fuel with
  | zero => intro idx resp now w0; simp [reloadRetryLoop]
  | succ f ih =>
    intro idx resp now w0
    by_cases hr : isReloadingResponse resp
    · by_cases hw : maxWaitS ≤ 0
      · simp [reloadRetryLoop, hr, hw]
      · by_cases he : maxWaitS ≤ now - w0
        · simp only [reloadRetryLoop, hr, if_true, hw, if_false]
          rw [if_pos (by simpa using he)]
          simp
        · simp only [reloadRetryLoop, hr, if_true, hw, if_false]
          rw [if_neg (by simpa using he)]
          exact ih (idx+1) (responses idx) _ w0
    · simp [reloadRetryLoop, hr]

theorem loop_first_success (responses : Nat → Resp) (retryMs : Int) (maxWaitS : Rat) :
    ∀ (k fuel idx : Nat) (resp : Resp) (now w0 : Rat),
      k ≤ fuel → w0 ≤ now →
      (∀ j, j < k → isReloadingResponse (scriptAt responses resp idx j)) →
      ¬ isReloadingResponse (scriptAt responses resp idx k) →
      (∀ j : Nat, j < k → now - w0 + (j : Rat)/4 < maxWaitS) →
      (reloadRetryLoop responses retryMs maxWaitS fuel idx resp now (some w0)).1
        = scriptAt responses resp idx k := by
  intro k
  induction k with
  | zero =>
    intro fuel idx resp now w0 _ _ _ hsucc _
    cases fuel with
    | zero => rfl
    | succ f =>
      have hr : ¬ isReloadingResponse resp := hsucc
      simp [reloadRetryLoop, hr]
      rfl
  | succ k' ih =>
    intro fuel idx resp now w0 hk hw0 hrel hsucc htime
    obtain ⟨f, rfl⟩ : ∃ f, fuel = f + 1 := ⟨fuel - 1, by omega⟩
    have hr : isReloadingResponse resp := hrel 0 (Nat.succ_pos _)
    have ht0 : now - w0 < maxWaitS := by
      have := htime 0 (Nat.succ_pos _)
      simpa using this
    have hwpos : ¬ maxWaitS ≤ 0 := by
      intro hle
      have : (0:Rat) ≤ now - w0 := by linarith
      linarith
    have hnb : ¬ maxWaitS ≤ now - w0 := by linarith
    simp only [reloadRetryLoop, hr, if_true, hwpos, if_false]
    rw [if_neg (by simpa using hnb)]
    have hsb := sleepFor_bounds resp retryMs
    set s := sleepFor resp retryMs with hs
    have step := ih f (idx + 1) (responses idx) (now + s) w0 (by omega) (by linarith)
      (fun j hj => by
        rw [scriptAt_shift]
        exact hrel (j+1) (by omega))
      (by
        rw [scriptAt_shift]
        exact hsucc)
      (fun j hj => by
        have h1 := htime (j + 1) (by omega)
        have hc : ((j + 1 : Nat) : Rat) = (j : Rat) + 1 := by push_cast; ring
        rw [hc] at h1
        linarith)
    dsimp only
    simp only [Option.getD_some]
    rw [step, scriptAt_shift]

theorem scriptAt_top (responses : Nat → Resp) (j : Nat) :
    scriptAt responses (responses 0) 1 j = responses j := by
  cases j with
  | zero => rfl
  | succ j' => show responses (1 + j') = responses (j' + 1); congr 1; omega

theorem send_sleeps_eq (responses : Nat → Resp) (maxRetries : Nat) (retryMs : Int)
    (maxWaitRaw : Rat) :
    (sendCommandWithRetry responses maxRetries retryMs maxWaitRaw).2
      = (reloadRetryLoop responses retryMs (max 0 (min maxWaitRaw 30)) maxRetries 1
          (responses 0) 0 none).2.2.2 := by
  unfold sendCommandWithRetry
  dsimp only
  rcases h : (reloadRetryLoop responses retryMs (max 0 (min maxWaitRaw 30)) maxRetries 1
      (responses 0) 0 none).2.2.1 with _ | w
  · rfl
  · by_cases hrel : isReloadingResponse (reloadRetryLoop responses retryMs
        (max 0 (min maxWaitRaw 30)) maxRetries 1 (responses 0) 0 none).1
    · simp [hrel]
    · simp [hrel]

theorem scriptAt_const (responses : Nat → Resp) (n j : Nat) :
    scriptAt responses (responses n) (n + 1) j = responses (n + j) := by
  cases j with
  | zero => rfl
  | succ j' => show responses (n + 1 + j') = responses (n + (j' + 1)); congr 1; omega

theorem loop_entry_ws_some (responses : Nat → Resp) (retryMs : Int) (maxWaitS : Rat)
    (f idx : Nat) (resp : Resp) (now : Rat) (ws : Option Rat)
    (hr : isReloadingResponse resp) :
    (reloadRetryLoop responses retryMs maxWaitS (f + 1) idx resp now ws).2.2.1.isSome := by
  by_cases hw : maxWaitS ≤ 0
  · simp [reloadRetryLoop, hr, hw]
  · by_cases he : maxWaitS ≤ now - ws.getD now
    · simp only [reloadRetryLoop, hr, if_true, hw, if_false]
      rw [if_pos (by simpa using he)]
      simp
    · simp only [reloadRetryLoop, hr, if_true, hw, if_false]
      rw [if_neg (by simpa using he)]
      exact loop_ws_some responses retryMs maxWaitS f (idx+1) (responses idx) _ _

theorem send_result_of_not_reloading (responses : Nat → Resp) (maxRetries : Nat)
    (retryMs : Int) (maxWaitRaw : Rat)
    (h : ¬ isReloadingResponse (reloadRetryLoop responses retryMs
        (max 0 (min maxWaitRaw 30)) maxRetries 1 (responses 0) 0 none).1) :
    (sendCommandWithRetry responses maxRetries retryMs maxWaitRaw).1
      = (reloadRetryLoop responses retryMs (max 0 (min maxWaitRaw 30)) maxRetries 1
          (responses 0) 0 none).1 := by
  unfold sendCommandWithRetry
  dsimp only
  rcases hws : (reloadRetryLoop responses retryMs (max 0 (min maxWaitRaw 30)) maxRetries 1
      (responses 0) 0 none).2.2.1 with _ | w
  · rfl
  · simp [h]

theorem send_busy_of_all_reloading (responses : Nat → Resp) (maxRetries : Nat)
    (retryMs : Int) (maxWaitRaw : Rat)
    (hall : ∀ i, isReloadingResponse (responses i)) (hm : 1 ≤ maxRetries) :
    (sendCommandWithRetry responses maxRetries retryMs maxWaitRaw).1
      = reloadBusyResp retryMs := by
  obtain ⟨f, rfl⟩ : ∃ f, maxRetries = f + 1 := ⟨maxRetries - 1, by omega⟩
  have hrel := loop_all_reloading_final responses retryMs (max 0 (min maxWaitRaw 30)) hall
    (f+1) 1 (responses 0) 0 none (hall 0)
  have hsome := loop_entry_ws_some responses retryMs (max 0 (min maxWaitRaw 30)) f 1
    (responses 0) 0 none (hall 0)
  obtain ⟨w, hw⟩ := Option.isSome_iff_exists.mp hsome
  unfold sendCommandWithRetry
  dsimp only
  rw [hw]
  simp [hrel]

theorem send_sum_bound (responses : Nat → Resp) (maxRetries : Nat) (retryMs : Int)
    (maxWaitRaw : Rat) :
    (sendCommandWithRetry responses maxRetries retryMs maxWaitRaw).2.sum
      ≤ max 0 (min maxWaitRaw 30) + 1/4 := by
  rw [send_sleeps_eq]
  set maxW : Rat := max 0 (min maxWaitRaw 30) with hmW
  have hW0 : (0:Rat) ≤ maxW := le_max_left _ _
  cases maxRetries with
  | zero => simp [reloadRetryLoop]; positivity
  | succ f =>
    by_cases hr : isReloadingResponse (responses 0)
    · by_cases hw : maxW ≤ 0
      · simp [reloadRetryLoop, hr, hw]; positivity
      · have he : ¬ maxW ≤ (0:Rat) - (Option.getD none (0:Rat)) := by
          simpa using hw
        simp only [reloadRetryLoop, hr, if_true, hw, if_false]
        rw [if_neg (by simpa using he)]
        dsimp only
        simp only [Option.getD_none, List.sum_cons]
        set s := sleepFor (responses 0) retryMs with hs
        have hsb := sleepFor_bounds (responses 0) retryMs
        by_cases hover : maxW ≤ (0 + s) - 0
        · rw [loop_over_budget_no_sleep responses retryMs maxW f 2 (responses 1) (0 + s) 0
            (Or.inr hover)]
          simp only [List.sum_nil, add_zero]
          linarith
        · have hb := loop_sum_bound responses retryMs maxW f 2 (responses 1) (0 + s) 0
          have h1 : (0:Rat) ≤ maxW - ((0 + s) - 0) := by linarith
          rw [max_eq_right h1] at hb
          linarith
    · simp [reloadRetryLoop, hr]; positivity

theorem send_first_success (responses : Nat → Resp) (maxRetries : Nat) (retryMs : Int)
    (maxWaitRaw : Rat) (k : Nat)
    (hrel : ∀ i, i < k → isReloadingResponse (responses i))
    (hsucc : ¬ isReloadingResponse (responses k))
    (hk : k ≤ maxRetries)
    (ht : (k : Rat)/4 ≤ max 0 (min maxWaitRaw 30)) :
    (sendCommandWithRetry responses maxRetries retryMs maxWaitRaw).1 = responses k := by
  set maxW : Rat := max 0 (min maxWaitRaw 30) with hmW
  have hout : (reloadRetryLoop responses retryMs maxW maxRetries 1
      (responses 0) 0 none).1 = responses k := by
    cases k with
    | zero =>
      cases maxRetries with
      | zero => rfl
      | succ f => simp [reloadRetryLoop, hsucc]
    | succ k' =>
      obtain ⟨f, rfl⟩ : ∃ f, maxRetries = f + 1 := ⟨maxRetries - 1, by omega⟩
      have hr : isReloadingResponse (responses 0) := hrel 0 (Nat.succ_pos _)
      have hWpos : (0:Rat) < maxW := by
        have : ((k' + 1 : Nat) : Rat)/4 ≤ maxW := ht
        have h14 : (1:Rat)/4 ≤ ((k' + 1 : Nat) : Rat)/4 := by
          have : (1:Rat) ≤ ((k' + 1 : Nat) : Rat) := by exact_mod_cast Nat.succ_le_succ (Nat.zero_le _)
          linarith
        linarith
      have hw : ¬ maxW ≤ 0 := by linarith
      have he : ¬ maxW ≤ (0:Rat) - (Option.getD none (0:Rat)) := by simpa using hw
      simp only [reloadRetryLoop, hr, if_true, hw, if_false]
      rw [if_neg (by simpa using he)]
      dsimp only
      simp only [Option.getD_none]
      set s := sleepFor (responses 0) retryMs with hs
      have hsb := sleepFor_bounds (responses 0) retryMs
      have step := loop_first_success responses retryMs maxW k' f 2 (responses 1) (0 + s) 0
        (by omega) (by linarith)
        (fun j hj => by
          rw [scriptAt_const]
          exact hrel (1 + j) (by omega))
        (by
          rw [scriptAt_const]
          have : 1 + k' = k' + 1 := by omega
          rw [this]
          exact hsucc)
        (fun j hj => by
          have hjk : ((j:Rat) + 1)/4 ≤ ((k':Rat))/4 := by
            have : (j:Rat) + 1 ≤ (k':Rat) := by exact_mod_cast hj
            linarith
          have hkk : ((k':Rat))/4 = ((k' + 1 : Nat):Rat)/4 - 1/4 := by push_cast; ring
          have := ht
          simp only [sub_zero]
          linarith)
      rw [step, scriptAt_const]
      congr 1
      omega
  have hnot : ¬ isReloadingResponse (reloadRetryLoop responses retryMs maxW maxRetries 1
      (responses 0) 0 none).1 := by
    rw [hout]; exact hsucc
  rw [send_result_of_not_reloading responses maxRetries retryMs maxWaitRaw hnot, hout]

def relDemo : Resp := .dict { state := some "reloading", retryAfterMs := some 100 }

def okDemo : Resp := .dict {}

/-- C2: for every response script with a structurally-reloading prefix,
`send_command_with_retry` (i) sleeps between resends exactly the
peer-suggested `retry_after_ms` clamped to `[50ms, 250ms]` (or the
configured default when absent), (ii) keeps the total sleep within the
wall-clock budget `max 0 (min maxWaitRaw 30)` (default raw value 2s) plus
one final clamped sleep, (iii) returns the structured busy response —
`success=false`, `hint="retry"`, `data.reason="reloading"`, suggested
`retry_after_ms` — rather than raising when the script stays reloading
past the budget/retry bound, and (iv) returns the first non-reloading
response unchanged when it arrives within the retry and budget bounds. -/
theorem C2_reload_retry_budget (responses : Nat → Resp) (maxRetries : Nat) (retryMs : Int)
    (maxWaitRaw : Rat) :
    (∀ (j : Nat) (s : Rat),
        (sendCommandWithRetry responses maxRetries retryMs maxWaitRaw).2.get? j = some s →
        s = sleepFor (responses j) retryMs ∧ 1/20 ≤ s ∧ s ≤ 1/4)
    ∧ (sendCommandWithRetry responses maxRetries retryMs maxWaitRaw).2.sum
        ≤ max 0 (min maxWaitRaw 30) + 1/4
    ∧ ((∀ i, isReloadingResponse (responses i)) → 1 ≤ maxRetries →
        (sendCommandWithRetry responses maxRetries retryMs maxWaitRaw).1
          = reloadBusyResp retryMs)
    ∧ (∀ k : Nat, (∀ i, i < k → isReloadingResponse (responses i)) →
        ¬ isReloadingResponse (responses k) → k ≤ maxRetries →
        (k : Rat)/4 ≤ max 0 (min maxWaitRaw 30) →
        (sendCommandWithRetry responses maxRetries retryMs maxWaitRaw).1 = responses k) := by
  refine ⟨?_, send_sum_bound responses maxRetries retryMs maxWaitRaw, ?_, ?_⟩
  · intro j s h
    rw [send_sleeps_eq] at h
    have hval := loop_sleeps_get responses retryMs (max 0 (min maxWaitRaw 30))
      maxRetries 1 (responses 0) 0 none j s h
    rw [scriptAt_top] at hval
    refine ⟨hval, ?_, ?_⟩
    · rw [hval]; exact (sleepFor_bounds _ _).1
    · rw [hval]; exact (sleepFor_bounds _ _).2
  · exact send_busy_of_all_reloading responses maxRetries retryMs maxWaitRaw
  · intro k hrel hsucc hk ht
    exact send_first_success responses maxRetries retryMs maxWaitRaw k hrel hsucc hk ht

/-- Witness for C2: a "reloading, reloading, success" script with the
default configuration reaches the success response unchanged. -/
theorem C2_reload_retry_budget_witness :
    (∀ i, i < 2 → isReloadingResponse ((fun i => if i < 2 then relDemo else okDemo) i))
    ∧ ¬ isReloadingResponse ((fun i => if i < 2 then relDemo else okDemo) 2)
    ∧ (2 : Nat) ≤ 40
    ∧ ((2 : Nat) : Rat)/4 ≤ max 0 (min 2 30)
    ∧ (sendCommandWithRetry (fun i => if i < 2 then relDemo else okDemo) 40 250 2).1
        = (fun i => if i < 2 then relDemo else okDemo) 2 :=
  ⟨fun i hi => by interval_cases i <;> decide,
   by decide, by decide, by norm_num,
   (C2_reload_retry_budget (fun i => if i < 2 then relDemo else okDemo) 40 250 2).2.2.2 2
     (fun i hi => by interval_cases i <;> decide) (by decide) (by decide) (by norm_num)⟩


/-- Maximum allowed framed payload size (64 MiB), `unity_connection.py`
line 27. -/
def FRAMED_MAX : Nat := 64 * 1024 * 1024

/-- Outcome of a framed receive: a payload, a raised `TimeoutError`, a
raised `ValueError` for an oversized header, or still blocked waiting for
more frames. -/
inductive RecvOut where
  | ok (payload : List Nat)
  | timeout
  | invalidLen (n : Nat)
  | blocked
  deriving Repr, DecidableEq

/-- The framed branch of `UnityConnection.receive_full_response`
(lines 139-177).  A frame is `(arrival time, payload bytes)`; the header
value is the payload length, so a zero-length payload is a heartbeat.
`startT` is `heartbeat_started` (taken at function entry); `count` is
`heartbeat_count`. -/
def receiveFramedLoop (limit : Nat) (window startT : Rat) :
    List (Rat × List Nat) → Nat → RecvOut
  | [], _ => .blocked
  | (t, payload) :: rest, count =>
    if payload.length = 0 then
      if count + 1 ≥ limit ∨ (t - startT) > window then .timeout
      else receiveFramedLoop limit window startT rest (count + 1)
    else if payload.length > FRAMED_MAX then .invalidLen payload.length
    else .ok payload

/-- `receive_full_response` in framed mode, from a fresh heartbeat state. -/
def receiveFullResponseFramed (limit : Nat) (window startT : Rat)
    (frames : List (Rat × List Nat)) : RecvOut :=
  receiveFramedLoop limit window startT frames 0

theorem recv_ok_mem (limit : Nat) (window startT : Rat) :
    ∀ (frames : List (Rat × List Nat)) (count : Nat) (p : List Nat),
      receiveFramedLoop limit window startT frames count = .ok p →
      p ≠ [] ∧ ∃ t, (t, p) ∈ frames := by
  intro frames
  induction frames with
  | nil => intro count p h; simp [receiveFramedLoop] at h
  | cons f rest ih =>
    intro count p h
    obtain ⟨t, payload⟩ := f
    by_cases hz : payload.length = 0
    · by_cases hto : count + 1 ≥ limit ∨ (t - startT) > window
      · simp [receiveFramedLoop, hz, hto] at h
      · simp only [receiveFramedLoop, hz, if_true, hto, if_false] at h
        obtain ⟨hne, t', hmem⟩ := ih (count + 1) p h
        exact ⟨hne, t', List.mem_cons_of_mem _ hmem⟩
    · by_cases hbig : payload.length > FRAMED_MAX
      · simp [receiveFramedLoop, hz, hbig] at h
      · simp only [receiveFramedLoop, hz, if_false, hbig] at h
        cases h
        refine ⟨?_, t, List.mem_cons_self _ _⟩
        intro hnil
        exact hz (by simp [hnil])

theorem recv_absorbs_heartbeats (limit : Nat) (window startT : Rat) :
    ∀ (hb : List (Rat × List Nat)) (count : Nat) (t : Rat) (p : List Nat)
      (rest : List (Rat × List Nat)),
      (∀ x ∈ hb, (x.2 : List Nat).length = 0) →
      count + hb.length < limit →
      (∀ x ∈ hb, (x.1 : Rat) - startT ≤ window) →
      p.length ≠ 0 → p.length ≤ FRAMED_MAX →
      receiveFramedLoop limit window startT (hb ++ (t, p) :: rest) count = .ok p := by
  intro hb
  induction hb with
  | nil =>
    intro count t p rest _ _ _ hp hcap
    simp only [List.nil_append, receiveFramedLoop, hp, if_false]
    rw [if_neg (by omega)]
  | cons x hbtl ih =>
    intro count t p rest hhb hlim htime hp hcap
    obtain ⟨tx, px⟩ := x
    have hz : px.length = 0 := hhb (tx, px) (List.mem_cons_self _ _)
    have hnt : ¬ (count + 1 ≥ limit ∨ (tx - startT) > window) := by
      push_neg
      constructor
      · simp only [List.length_cons] at hlim; omega
      · exact not_lt.mp (not_lt.mpr (htime (tx, px) (List.mem_cons_self _ _)))
    simp only [List.cons_append, receiveFramedLoop, hz, if_true, hnt, if_false]
    exact ih (count + 1) t p rest (fun y hy => hhb y (List.mem_cons_of_mem _ hy))
      (by simp only [List.length_cons] at hlim; omega)
      (fun y hy => htime y (List.mem_cons_of_mem _ hy)) hp hcap

theorem recv_timeout_of_count (limit : Nat) (window startT : Rat) :
    ∀ (hb rest : List (Rat × List Nat)) (count : Nat),
      (∀ x ∈ hb, (x.2 : List Nat).length = 0) →
      count < limit → limit ≤ count + hb.length →
      receiveFramedLoop limit window startT (hb ++ rest) count = .timeout := by
  intro hb
  induction hb with
  | nil => intro rest count _ h1 h2; simp at h1 h2; omega
  | cons x hbtl ih =>
    intro rest count hhb h1 h2
    obtain ⟨tx, px⟩ := x
    have hz : px.length = 0 := hhb (tx, px) (List.mem_cons_self _ _)
    by_cases hnt : count + 1 ≥ limit ∨ (tx - startT) > window
    · simp [receiveFramedLoop, hz, hnt]
    · simp only [List.cons_append, receiveFramedLoop, hz, if_true, hnt, if_false]
      push_neg at hnt
      exact ih rest (count + 1) (fun y hy => hhb y (List.mem_cons_of_mem _ hy))
        (by omega) (by simp only [List.length_cons] at h2; omega)

theorem recv_timeout_of_late_heartbeat (limit : Nat) (window startT : Rat) :
    ∀ (hb rest : List (Rat × List Nat)) (count : Nat),
      (∀ x ∈ hb, (x.2 : List Nat).length = 0) →
      (∃ x ∈ hb, (x.1 : Rat) - startT > window) →
      receiveFramedLoop limit window startT (hb ++ rest) count = .timeout := by
  intro hb
  induction hb with
  | nil => intro rest count _ h; simp at h
  | cons x hbtl ih =>
    intro rest count hhb hlate
    obtain ⟨tx, px⟩ := x
    have hz : px.length = 0 := hhb (tx, px) (List.mem_cons_self _ _)
    by_cases hnt : count + 1 ≥ limit ∨ (tx - startT) > window
    · simp [receiveFramedLoop, hz, hnt]
    · simp only [List.cons_append, receiveFramedLoop, hz, if_true, hnt, if_false]
      push_neg at hnt
      obtain ⟨y, hy, hyl⟩ := hlate
      rcases List.mem_cons.mp hy with rfl | hy'
      · exact absurd hyl (not_lt.mpr hnt.2)
      · exact ih rest (count + 1) (fun z hz' => hhb z (List.mem_cons_of_mem _ hz'))
          ⟨y, hy', hyl⟩

theorem recv_oversize (limit : Nat) (window startT : Rat)
    (hb : List (Rat × List Nat)) (count : Nat) (t : Rat) (p : List Nat)
    (rest : List (Rat × List Nat))
    (hhb : ∀ x ∈ hb, (x.2 : List Nat).length = 0)
    (hlim : count + hb.length < limit)
    (htime : ∀ x ∈ hb, (x.1 : Rat) - startT ≤ window)
    (hbig : p.length > FRAMED_MAX) :
    receiveFramedLoop limit window startT (hb ++ (t, p) :: rest) count
      = .invalidLen p.length := by
  induction hb generalizing count with
  | nil =>
    have hp : p.length ≠ 0 := by unfold FRAMED_MAX at hbig; omega
    simp only [List.nil_append, receiveFramedLoop, hp, if_false]
    rw [if_pos hbig]
  | cons x hbtl ih =>
    obtain ⟨tx, px⟩ := x
    have hz : px.length = 0 := hhb (tx, px) (List.mem_cons_self _ _)
    have hnt : ¬ (count + 1 ≥ limit ∨ (tx - startT) > window) := by
      push_neg
      refine ⟨by simp only [List.length_cons] at hlim; omega, ?_⟩
      exact not_lt.mp (not_lt.mpr (htime (tx, px) (List.mem_cons_self _ _)))
    simp only [List.cons_append, receiveFramedLoop, hz, if_true, hnt, if_false]
    exact ih (count + 1) (fun y hy => hhb y (List.mem_cons_of_mem _ hy))
      (by simp only [List.length_cons] at hlim; omega)
      (fun y hy => htime y (List.mem_cons_of_mem _ hy))

/-- C3: in framed mode `receive_full_response` never returns a heartbeat
(zero-length) frame: (i) an `ok` result is always the non-empty payload of
one of the incoming frames, (ii) a heartbeat run reaching the count
threshold surfaces a timeout instead of blocking, (iii) so does a
heartbeat arriving more than the window after the first heartbeat (the
code measures from function entry, which is even earlier), and (iv) the
heartbeat prefix is absorbed and the first non-empty in-cap frame's
contents are returned. -/
theorem C3_heartbeats_absorbed :
    (∀ (limit : Nat) (window startT : Rat) (frames : List (Rat × List Nat)) (p : List Nat),
        receiveFullResponseFramed limit window startT frames = .ok p →
        p ≠ [] ∧ ∃ t, (t, p) ∈ frames)
    ∧ (∀ (limit : Nat) (window startT : Rat) (hb rest : List (Rat × List Nat)),
        (∀ x ∈ hb, (x.2 : List Nat).length = 0) → 1 ≤ limit → limit ≤ hb.length →
        receiveFullResponseFramed limit window startT (hb ++ rest) = .timeout)
    ∧ (∀ (limit : Nat) (window startT : Rat) (h0 : Rat × List Nat)
        (hbtl rest : List (Rat × List Nat)),
        (∀ x ∈ h0 :: hbtl, (x.2 : List Nat).length = 0) →
        startT ≤ h0.1 →
        (∃ x ∈ h0 :: hbtl, (x.1 : Rat) - h0.1 > window) →
        receiveFullResponseFramed limit window startT ((h0 :: hbtl) ++ rest) = .timeout)
    ∧ (∀ (limit : Nat) (window startT : Rat) (hb : List (Rat × List Nat)) (t : Rat)
        (p : List Nat) (rest : List (Rat × List Nat)),
        (∀ x ∈ hb, (x.2 : List Nat).length = 0) → hb.length < limit →
        (∀ x ∈ hb, (x.1 : Rat) - startT ≤ window) →
        p.length ≠ 0 → p.length ≤ FRAMED_MAX →
        receiveFullResponseFramed limit window startT (hb ++ (t, p) :: rest) = .ok p) := by
  refine ⟨?_, ?_, ?_, ?_⟩
  · intro limit window startT frames p h
    exact recv_ok_mem limit window startT frames 0 p h
  · intro limit window startT hb rest hhb h1 h2
    exact recv_timeout_of_count limit window startT hb rest 0 hhb (by omega) (by omega)
  · intro limit window startT h0 hbtl rest hhb hstart hlate
    apply recv_timeout_of_late_heartbeat limit window startT (h0 :: hbtl) rest 0 hhb
    obtain ⟨x, hx, hxl⟩ := hlate
    exact ⟨x, hx, by linarith⟩
  · intro limit window startT hb t p rest hhb hlim htime hp hcap
    exact recv_absorbs_heartbeats limit window startT hb 0 t p rest hhb (by omega) htime hp hcap

/-- Witness for C3: one timely heartbeat followed by a real frame yields
that frame's payload. -/
theorem C3_heartbeats_absorbed_witness :
    (∀ x ∈ [((0:Rat), ([] : List Nat))], (x.2 : List Nat).length = 0)
    ∧ ([((0:Rat), ([] : List Nat))].length < 16)
    ∧ (∀ x ∈ [((0:Rat), ([] : List Nat))], (x.1 : Rat) - 0 ≤ 2)
    ∧ ([42] : List Nat).length ≠ 0 ∧ ([42] : List Nat).length ≤ FRAMED_MAX
    ∧ receiveFullResponseFramed 16 2 0
        ([((0:Rat), ([] : List Nat))] ++ ((1:Rat), [42]) :: []) = .ok [42] :=
  ⟨by decide, by decide, by norm_num, by decide, by decide,
   C3_heartbeats_absorbed.2.2.2 16 2 0 [((0:Rat), ([] : List Nat))] 1 [42] []
     (by decide) (by decide) (by norm_num) (by decide) (by decide)⟩

/-- C9: the hard cap is 64 MiB, and for every received header that
survives heartbeat absorption, a non-zero frame length strictly above the
cap raises the `Invalid framed length` error (tearing the connection down
in `send_command`'s handler) while a non-zero length at or below the cap
returns exactly that frame's bytes as the payload. -/
theorem C9_frame_length_cap :
    FRAMED_MAX = 64 * 1024 * 1024
    ∧ (∀ (limit : Nat) (window startT : Rat) (hb : List (Rat × List Nat)) (t : Rat)
        (p : List Nat) (rest : List (Rat × List Nat)),
        (∀ x ∈ hb, (x.2 : List Nat).length = 0) → hb.length < limit →
        (∀ x ∈ hb, (x.1 : Rat) - startT ≤ window) →
        p.length ≠ 0 →
        receiveFullResponseFramed limit window startT (hb ++ (t, p) :: rest)
          = if p.length > FRAMED_MAX then .invalidLen p.length else .ok p) := by
  refine ⟨rfl, ?_⟩
  intro limit window startT hb t p rest hhb hlim htime hp
  by_cases hbig : p.length > FRAMED_MAX
  · rw [if_pos hbig]
    exact recv_oversize limit window startT hb 0 t p rest hhb (by omega) htime hbig
  · rw [if_neg hbig]
    exact recv_absorbs_heartbeats limit window startT hb 0 t p rest hhb (by omega) htime hp
      (by omega)

/-- Witness for C9: a single in-cap frame is returned whole. -/
theorem C9_frame_length_cap_witness :
    (∀ x ∈ ([] : List (Rat × List Nat)), (x.2 : List Nat).length = 0)
    ∧ (([] : List (Rat × List Nat)).length < 16)
    ∧ (∀ x ∈ ([] : List (Rat × List Nat)), (x.1 : Rat) - 0 ≤ 2)
    ∧ ([1, 2, 3] : List Nat).length ≠ 0
    ∧ receiveFullResponseFramed 16 2 0 ([] ++ ((0:Rat), [1, 2, 3]) :: []) = .ok [1, 2, 3] := by
  refine ⟨by simp, by decide, by simp, by decide, ?_⟩
  have h := C9_frame_length_cap.2 16 2 0 [] 0 [1, 2, 3] []
    (by simp) (by decide) (by simp) (by decide)
  simpa using h


/-! ### Session hub: per-command-class timeouts and disconnect handling
(`transport/plugin_hub.py`) -/

/-- `PluginHub._FAST_FAIL_COMMANDS`. -/
def FAST_FAIL_COMMANDS : List String := ["read_console", "get_editor_state", "ping"]

/-- `PluginHub.COMMAND_TIMEOUT` (seconds). -/
def COMMAND_TIMEOUT : Rat := 30

/-- `PluginHub.FAST_FAIL_TIMEOUT` (seconds). -/
def FAST_FAIL_TIMEOUT : Rat := 2

/-- The two spellings of a caller-requested timeout in `params`, already
passed through `float()` (a value `float()` rejects is modelled as
absent, which matches the `except: pass`). -/
structure CommandParams where
  timeout_seconds : Option Rat := none
  timeoutSeconds : Option Rat := none
  deriving Repr, DecidableEq

/-- `params.get("timeout_seconds", None)` falling back to
`params.get("timeoutSeconds", None)`. -/
def requestedTimeout (p : CommandParams) : Option Rat :=
  match p.timeout_seconds with
  | some v => some v
  | none => p.timeoutSeconds

/-- The per-command timeout computation of `PluginHub.send_command`
(lines 148-175): `(unity_timeout_s, server_wait_s)`. -/
def computeTimeouts (commandType : String) (params : CommandParams) : Rat × Rat :=
  if commandType ∈ FAST_FAIL_COMMANDS then
    (FAST_FAIL_TIMEOUT, FAST_FAIL_TIMEOUT)
  else
    match requestedTimeout params with
    | none => (COMMAND_TIMEOUT, COMMAND_TIMEOUT)
    | some requested =>
      let requestedS := max 1 (min requested 3600)
      (max COMMAND_TIMEOUT requestedS, max COMMAND_TIMEOUT (requestedS + 5))

/-- How the `await` on the pending future ends. -/
inductive AwaitOutcome where
  | result (r : DictResp)
  | disconnected (sessionId : String)
  | timedOut
  deriving Repr, DecidableEq

/-- What `PluginHub.send_command` does after the await (lines 203-214):
return the result, convert exceptions to structured retries, or re-raise
the timeout. -/
inductive SendOutcome where
  | ok (r : DictResp)
  | retry (r : MCPResp)
  | raisedTimeout
  deriving Repr, DecidableEq

/-- Message of `PluginDisconnectedError` as built in `on_disconnect`. -/
def disconnectMessage (sessionId : String) : String :=
  "Unity plugin session " ++ sessionId ++ " disconnected while awaiting command_result"

/-- Message of the fast-path timeout retry response (the interpolated
`server_wait_s` numeral is elided from the text). -/
def fastFailTimeoutMessage (commandType : String) : String :=
  "Unity did not respond to '" ++ commandType ++ "'; please retry"

/-- The `except` clauses of `PluginHub.send_command` (lines 203-214):
a `PluginDisconnectedError` becomes a structured retry for every command
class; an `asyncio.TimeoutError` becomes a structured retry for fast-path
commands and propagates for all others. -/
def handleAwaitOutcome (commandType : String) : AwaitOutcome → SendOutcome
  | .result r => .ok r
  | .disconnected sid =>
    .retry { success := false, error := some (disconnectMessage sid), hint := some "retry" }
  | .timedOut =>
    if commandType ∈ FAST_FAIL_COMMANDS then
      .retry { success := false, error := some (fastFailTimeoutMessage commandType),
               hint := some "retry" }
    else .raisedTimeout

/-- State of one pending command's future. -/
inductive FutState where
  | pending
  | result (r : DictResp)
  | disconnectedExc (sessionId : String)
  deriving Repr, DecidableEq

/-- One entry of `PluginHub._pending`: `command_id -> {future, session_id}`. -/
structure PendingEntry where
  commandId : String
  sessionId : String
  future : FutState
  deriving Repr, DecidableEq

/-- The hub's shared state: `_connections` (session id → websocket handle),
the registered sessions, and `_pending`.  `registrySessions` is modelled
from the spec: `PluginRegistry` is not among the transport sources; §4.5
says a session is registered on `register` and unregistered on
disconnect. -/
structure HubState where
  connections : List (String × Nat)
  registrySessions : List String
  pending : List PendingEntry
  deriving Repr, DecidableEq

/-- `PluginHub.on_disconnect` (lines 107-137): find the session owning the
socket, drop the connection, force-resolve that session's still-pending
futures with a `PluginDisconnectedError`, and unregister the session. -/
def onDisconnect (st : HubState) (ws : Nat) : HubState :=
  match st.connections.find? (fun c => c.2 == ws) with
  | none => st
  | some c =>
    { connections := st.connections.filter (fun x => x.1 != c.1),
      registrySessions := st.registrySessions.filter (fun s => s != c.1),
      pending := st.pending.map (fun e =>
        if e.sessionId == c.1 && e.future == FutState.pending then
          { e with future := .disconnectedExc c.1 }
        else e) }


/-- C4: `PluginHub.send_command` applies class-dependent timeouts — every
fast-path command (`ping`, `read_console`, `get_editor_state`) gets the
2-second pair and its expiry returns a structured `hint="retry"` response
instead of propagating; every other command defaults to 30 seconds, a
caller-requested `timeout_seconds` is honored above that default up to the
1-hour ceiling with a 5-second server-side cushion beyond the requested
value, and its expiry propagates as a hard timeout. -/
theorem C4_class_dependent_timeouts :
    (∀ (ct : String) (params : CommandParams), ct ∈ FAST_FAIL_COMMANDS →
        computeTimeouts ct params = (2, 2))
    ∧ (∀ ct : String, ct ∈ FAST_FAIL_COMMANDS →
        handleAwaitOutcome ct .timedOut
          = .retry { success := false, error := some (fastFailTimeoutMessage ct),
                     hint := some "retry" })
    ∧ (∀ (ct : String) (params : CommandParams), ¬ ct ∈ FAST_FAIL_COMMANDS →
        requestedTimeout params = none → computeTimeouts ct params = (30, 30))
    ∧ (∀ (ct : String) (params : CommandParams) (req : Rat),
        ¬ ct ∈ FAST_FAIL_COMMANDS → requestedTimeout params = some req →
        computeTimeouts ct params
          = (max 30 (max 1 (min req 3600)), max 30 (max 1 (min req 3600) + 5))
        ∧ (computeTimeouts ct params).1 ≤ 3600
        ∧ (computeTimeouts ct params).2 ≤ 3605
        ∧ (30 ≤ req → req ≤ 3600 → (computeTimeouts ct params).1 = req
            ∧ (computeTimeouts ct params).2 = req + 5))
    ∧ (∀ ct : String, ct ∉ FAST_FAIL_COMMANDS →
        handleAwaitOutcome ct .timedOut = .raisedTimeout) := by
  refine ⟨?_, ?_, ?_, ?_, ?_⟩
  · intro ct params h
    simp [computeTimeouts, h, FAST_FAIL_TIMEOUT]
  · intro ct h
    simp [handleAwaitOutcome, h]
  · intro ct params h hreq
    simp [computeTimeouts, h, hreq, COMMAND_TIMEOUT]
  · intro ct params req h hreq
    have hc : computeTimeouts ct params
        = (max 30 (max 1 (min req 3600)), max 30 (max 1 (min req 3600) + 5)) := by
      simp [computeTimeouts, h, hreq, COMMAND_TIMEOUT]
    refine ⟨hc, ?_, ?_, ?_⟩
    · rw [hc]
      have h1 : max 1 (min req 3600) ≤ 3600 := max_le (by norm_num) (min_le_right _ _)
      exact max_le (by norm_num) h1
    · rw [hc]
      have h1 : max 1 (min req 3600) ≤ 3600 := max_le (by norm_num) (min_le_right _ _)
      exact max_le (by norm_num) (by linarith)
    · intro h30 h3600
      have hclamp : max 1 (min req 3600) = req := by
        rw [min_eq_left h3600, max_eq_right (by linarith)]
      rw [hc, hclamp]
      constructor
      · exact max_eq_right (by linarith)
      · exact max_eq_right (by linarith)
  · intro ct h
    simp [handleAwaitOutcome, h]

/-- Witness for C4: `read_console` is fast-path and gets the 2s pair. -/
theorem C4_witness :
    "read_console" ∈ FAST_FAIL_COMMANDS ∧
    computeTimeouts "read_console" {} = (2, 2) :=
  ⟨by decide, C4_class_dependent_timeouts.1 "read_console" {} (by decide)⟩

/-- C10: a caller-requested `timeout_seconds` can only lengthen the wait —
the request is clamped to `[1, 3600]`, the Unity-side timeout is
`max 30 clamped`, the server-side wait is `max 30 (clamped + 5)`, both are
at least the 30-second default, and any request below 30 seconds still
yields the full 30-second Unity-side timeout. -/
theorem C10_requested_timeout_never_shortens :
    ∀ (ct : String) (params : CommandParams) (req : Rat),
      ¬ ct ∈ FAST_FAIL_COMMANDS → requestedTimeout params = some req →
      computeTimeouts ct params
        = (max 30 (max 1 (min req 3600)), max 30 (max 1 (min req 3600) + 5))
      ∧ 1 ≤ max 1 (min req 3600) ∧ max 1 (min req 3600) ≤ 3600
      ∧ 30 ≤ (computeTimeouts ct params).1
      ∧ 30 ≤ (computeTimeouts ct params).2
      ∧ (req < 30 → (computeTimeouts ct params).1 = 30) := by
  intro ct params req h hreq
  have hc : computeTimeouts ct params
      = (max 30 (max 1 (min req 3600)), max 30 (max 1 (min req 3600) + 5)) := by
    simp [computeTimeouts, h, hreq, COMMAND_TIMEOUT]
  refine ⟨hc, le_max_left _ _, max_le (by norm_num) (min_le_right _ _), ?_, ?_, ?_⟩
  · rw [hc]; exact le_max_left _ _
  · rw [hc]; exact le_max_left _ _
  · intro h30
    rw [hc]
    have hle : max 1 (min req 3600) ≤ 30 := by
      rcases le_or_lt req 1 with h1 | h1
      · rw [min_eq_left (by linarith)]
        rw [max_eq_left (by linarith)]
        norm_num
      · rw [min_eq_left (by linarith), max_eq_right (by linarith)]
        linarith
    exact max_eq_left hle

/-- Witness for C10: requesting 10 seconds still waits the full 30. -/
theorem C10_witness :
    "run_tests" ∉ FAST_FAIL_COMMANDS
    ∧ requestedTimeout { timeout_seconds := some 10 } = some 10
    ∧ (10 : Rat) < 30
    ∧ (computeTimeouts "run_tests" { timeout_seconds := some 10 }).1 = 30 :=
  ⟨by decide, rfl, by norm_num,
   (C10_requested_timeout_never_shortens "run_tests" { timeout_seconds := some 10 } 10
     (by decide) rfl).2.2.2.2.2 (by norm_num)⟩


/-- C5: on WebSocket disconnect, every still-pending command owned by the
disconnecting session — and only that session — is force-resolved with the
disconnect exception, the session is removed from the connection table and
the registry, and the awaiting caller receives a structured
`success=false`, `hint="retry"` response rather than a raised exception. -/
theorem C5_disconnect_force_resolves :
    (∀ (st : HubState) (ws : Nat) (c : String × Nat),
        st.connections.find? (fun x => x.2 == ws) = some c →
        (∀ e ∈ (onDisconnect st ws).pending, e.sessionId = c.1 → e.future ≠ .pending)
        ∧ (∀ e ∈ st.pending, e.sessionId = c.1 → e.future = .pending →
            { e with future := .disconnectedExc c.1 } ∈ (onDisconnect st ws).pending)
        ∧ (∀ e ∈ st.pending, e.sessionId ≠ c.1 → e ∈ (onDisconnect st ws).pending)
        ∧ (∀ x ∈ (onDisconnect st ws).connections, x.1 ≠ c.1)
        ∧ (∀ s ∈ (onDisconnect st ws).registrySessions, s ≠ c.1))
    ∧ (∀ (ct : String) (sid : String),
        handleAwaitOutcome ct (.disconnected sid)
          = .retry { success := false, error := some (disconnectMessage sid),
                     hint := some "retry" }) := by
  constructor
  · intro st ws c hfind
    refine ⟨?_, ?_, ?_, ?_, ?_⟩
    · intro e he hsid
      simp only [onDisconnect, hfind] at he
      obtain ⟨e0, he0, rfl⟩ := List.mem_map.mp he
      by_cases hc : e0.sessionId == c.1 && e0.future == FutState.pending
      · simp only [hc, if_true]
        intro hcontra
        cases hcontra
      · simp only [hc, if_false]
        have := hc
        simp only [Bool.and_eq_true, beq_iff_eq] at this
        intro hfut
        simp only [hc, if_false] at hsid
        exact this ⟨hsid, hfut⟩
    · intro e he hsid hfut
      simp only [onDisconnect, hfind]
      apply List.mem_map.mpr
      refine ⟨e, he, ?_⟩
      have hc : (e.sessionId == c.1 && e.future == FutState.pending) = true := by
        simp [hsid, hfut]
      simp only [hc, if_true]
    · intro e he hsid
      simp only [onDisconnect, hfind]
      apply List.mem_map.mpr
      refine ⟨e, he, ?_⟩
      have hc : (e.sessionId == c.1 && e.future == FutState.pending) = false := by
        simp [hsid]
      simp [hc]
    · intro x hx
      simp only [onDisconnect, hfind] at hx
      have := List.of_mem_filter hx
      simpa using this
    · intro s hs
      simp only [onDisconnect, hfind] at hs
      have := List.of_mem_filter hs
      simpa using this
  · intro ct sid
    rfl

def demoHub : HubState :=
  { connections := [("s1", 1), ("s2", 2)],
    registrySessions := ["s1", "s2"],
    pending := [⟨"cmd1", "s1", .pending⟩, ⟨"cmd2", "s1", .pending⟩, ⟨"cmd3", "s2", .pending⟩] }

/-- Witness for C5: disconnecting the socket of session `s1` resolves its
pending command with the disconnect exception. -/
theorem C5_witness :
    demoHub.connections.find? (fun x => x.2 == 1) = some ("s1", 1)
    ∧ (⟨"cmd1", "s1", .pending⟩ : PendingEntry) ∈ demoHub.pending
    ∧ ({ (⟨"cmd1", "s1", .pending⟩ : PendingEntry) with future := .disconnectedExc "s1" }
        ∈ (onDisconnect demoHub 1).pending) :=
  ⟨by rfl, by decide,
   (C5_disconnect_force_resolves.1 demoHub 1 ("s1", 1) (by rfl)).2.1
     ⟨"cmd1", "s1", .pending⟩ (by decide) rfl rfl⟩


/-! ### Instance discovery (`transport/legacy/port_discovery.py`) -/

/-- Parsed JSON content of one status file.  `lastHeartbeat` is the
already-parsed ISO timestamp (`none` when absent or unparsable, matching
the inner `except: pass`). -/
structure StatusData where
  projectPath : String := ""
  unityPort : Option Int := none
  reloading : Bool := false
  lastHeartbeat : Option Rat := none
  unityVersion : Option String := none
  deriving Repr, DecidableEq

/-- One on-disk `unity-mcp-status-<hash>.json` file as the scanner sees
it: the hash embedded in the filename, the file mtime, and the JSON parse
outcome (`none` for a malformed file). -/
structure StatusFile where
  hashv : String
  mtime : Rat
  parsed : Option StatusData
  deriving Repr, DecidableEq

/-- Python `path.rstrip('/\\')`. -/
def rstripSlashes (l : List Char) : List Char :=
  (l.reverse.dropWhile (fun c => c == '/' || c == '\\')).reverse

/-- POSIX `os.path.basename`: the segment after the last `/`. -/
def baseNameChars (l : List Char) : List Char :=
  (l.reverse.takeWhile (fun c => c != '/')).reverse

/-- `PortDiscovery._extract_project_name` (lines 202-223). -/
def extractProjectName (projectPath : String) : String :=
  if projectPath == "" then "Unknown"
  else
    let p1 := rstripSlashes projectPath.data
    let p2 :=
      if pyEndsWith ⟨p1⟩ "Assets" then rstripSlashes (p1.take (p1.length - 6))
      else p1
    let nm := baseNameChars p2
    if nm.isEmpty then "Unknown" else ⟨nm⟩

/-- `last_heartbeat or file_mtime`. -/
def fileFreshness (f : StatusFile) (d : StatusData) : Rat :=
  d.lastHeartbeat.getD f.mtime

/-- The instance built for a surviving status file. -/
def instanceOfFile (f : StatusFile) (d : StatusData) : UnityInstanceInfo :=
  { id := extractProjectName d.projectPath ++ "@" ++ f.hashv,
    name := extractProjectName d.projectPath,
    path := d.projectPath,
    hash := f.hashv,
    port := d.unityPort,
    status := if d.reloading then "reloading" else "running",
    lastHeartbeat := d.lastHeartbeat,
    unityVersion := d.unityVersion }

/-- `is_alive = PortDiscovery._try_probe_unity_mcp(port) if isinstance(port, int)
else False`, with `probe` the environment's answer to the protocol probe. -/
def probeAlive (probe : Int → Bool) (d : StatusData) : Bool :=
  match d.unityPort with
  | some p => probe p
  | none => false

/-- The loop body of `discover_all_unity_instances` (lines 240-317) for
one status file: parse, probe, and keep the file unless the probe fails on
a stale or non-reloading entry.  Returns the instance and its freshness. -/
def scanStatusFile (probe : Int → Bool) (now : Rat) (f : StatusFile) :
    Option (UnityInstanceInfo × Rat) :=
  match f.parsed with
  | none => none
  | some d =>
    if !probeAlive probe d && !(d.reloading && now - fileFreshness f d < 60) then none
    else some (instanceOfFile f d, fileFreshness f d)

/-- `instances_by_port[port] = ...` with stale-entry suppression: an
existing at-least-as-fresh entry for the same port wins, a strictly
fresher new entry replaces it in place. -/
def insertByPort (acc : List (Option Int × UnityInstanceInfo × Rat))
    (entry : UnityInstanceInfo × Rat) : List (Option Int × UnityInstanceInfo × Rat) :=
  match acc.find? (fun x => x.1 == entry.1.port) with
  | some existing =>
    if entry.2 ≤ existing.2.2 then acc
    else acc.map (fun x => if x.1 == entry.1.port then (entry.1.port, entry) else x)
  | none => acc ++ [(entry.1.port, entry)]

/-- Stable insertion for the descending sort on freshness. -/
def insertFreshDesc (e : UnityInstanceInfo × Rat) :
    List (UnityInstanceInfo × Rat) → List (UnityInstanceInfo × Rat)
  | [] => [e]
  | x :: xs => if x.2 > e.2 then x :: insertFreshDesc e xs else e :: x :: xs

/-- `sorted(instances_by_port.values(), key=freshness, reverse=True)`. -/
def sortByFreshnessDesc (l : List (UnityInstanceInfo × Rat)) :
    List (UnityInstanceInfo × Rat) :=
  l.foldr insertFreshDesc []

/-- `PortDiscovery.discover_all_unity_instances` (lines 226-329). -/
def discoverAllUnityInstances (probe : Int → Bool) (now : Rat)
    (files : List StatusFile) : List UnityInstanceInfo :=
  let table := files.foldl (fun acc f =>
    match scanStatusFile probe now f with
    | some entry => insertByPort acc entry
    | none => acc) []
  (sortByFreshnessDesc (table.map (fun x => x.2))).map (fun e => e.1)


theorem find?_port_none (acc : List (Option Int × UnityInstanceInfo × Rat))
    (p : Option Int) (h : p ∉ acc.map (fun x => x.1)) :
    acc.find? (fun x => x.1 == p) = none := by
  apply List.find?_eq_none.mpr
  intro x hx
  simp only [beq_iff_eq]
  intro hxp
  exact h (by rw [← hxp]; exact List.mem_map_of_mem _ hx)

theorem fold_insert_distinct :
    ∀ (entries : List (UnityInstanceInfo × Rat))
      (acc : List (Option Int × UnityInstanceInfo × Rat)),
      (∀ e ∈ entries, e.1.port ∉ acc.map (fun x => x.1)) →
      ((entries.map (fun e => e.1.port)).Nodup) →
      List.foldl insertByPort acc entries
        = acc ++ entries.map (fun e => (e.1.port, e)) := by
  intro entries
  induction entries with
  | nil => intro acc _ _; simp
  | cons e rest ih =>
    intro acc hnotin hnodup
    have hfind : acc.find? (fun x => x.1 == e.1.port) = none :=
      find?_port_none acc e.1.port (hnotin e (List.mem_cons_self _ _))
    simp only [List.foldl_cons]
    rw [show insertByPort acc e = acc ++ [(e.1.port, e)] by
      unfold insertByPort; rw [hfind]]
    rw [ih (acc ++ [(e.1.port, e)]) ?_ ?_]
    · simp
    · intro e' he'
      simp only [List.map_append, List.mem_append, List.map_cons, List.map_nil,
        List.mem_singleton]
      rintro (h1 | h2)
      · exact hnotin e' (List.mem_cons_of_mem _ he') h1
      · simp only [List.map_cons, List.nodup_cons] at hnodup
        exact hnodup.1 (h2 ▸ List.mem_map_of_mem (fun x => x.1.port) he')
    · simp only [List.map_cons, List.nodup_cons] at hnodup
      exact hnodup.2

theorem fold_over_files (probe : Int → Bool) (now : Rat) :
    ∀ (files : List StatusFile) (acc : List (Option Int × UnityInstanceInfo × Rat)),
      files.foldl (fun acc f =>
          match scanStatusFile probe now f with
          | some entry => insertByPort acc entry
          | none => acc) acc
        = List.foldl insertByPort acc (files.filterMap (scanStatusFile probe now)) := by
  intro files
  induction files with
  | nil => intro acc; rfl
  | cons f rest ih =>
    intro acc
    simp only [List.foldl_cons, List.filterMap_cons]
    cases hscan : scanStatusFile probe now f with
    | none => exact ih acc
    | some entry => simp only [List.foldl_cons]; exact ih (insertByPort acc entry)


theorem insertByPort_found (acc : List (Option Int × UnityInstanceInfo × Rat))
    (entry : UnityInstanceInfo × Rat) (existing : Option Int × UnityInstanceInfo × Rat)
    (h : acc.find? (fun x => x.1 == entry.1.port) = some existing) :
    insertByPort acc entry
      = if entry.2 ≤ existing.2.2 then acc
        else acc.map (fun x => if x.1 == entry.1.port then (entry.1.port, entry) else x) := by
  unfold insertByPort
  rw [h]

/-- C6: for every status file scanned — (i) when the liveness probe fails
the instance survives exactly when the file self-reports `reloading` and
its heartbeat-or-mtime age is under 60 seconds (kept with status
`reloading`), and is dropped otherwise; (ii) a successful probe with
`reloading=false` yields status `running`; (iii) a malformed file is
skipped and the total scanner never raises; (iv) with pairwise-distinct
ports the scan is exactly the per-file rule applied to each file, sorted
by freshness; (v) when two status files map to the same port, the more
recently updated one wins. -/
theorem C6_discovery_keep_drop :
    (∀ (probe : Int → Bool) (now : Rat) (f : StatusFile) (d : StatusData),
        f.parsed = some d → probeAlive probe d = false →
        ((scanStatusFile probe now f = some (instanceOfFile f d, fileFreshness f d))
            ↔ (d.reloading = true ∧ now - fileFreshness f d < 60))
        ∧ (d.reloading = true → (instanceOfFile f d).status = "reloading")
        ∧ (¬ (d.reloading = true ∧ now - fileFreshness f d < 60) →
            scanStatusFile probe now f = none))
    ∧ (∀ (probe : Int → Bool) (now : Rat) (f : StatusFile) (d : StatusData),
        f.parsed = some d → probeAlive probe d = true → d.reloading = false →
        scanStatusFile probe now f = some (instanceOfFile f d, fileFreshness f d)
        ∧ (instanceOfFile f d).status = "running")
    ∧ (∀ (probe : Int → Bool) (now : Rat) (f : StatusFile),
        f.parsed = none → scanStatusFile probe now f = none)
    ∧ (∀ (probe : Int → Bool) (now : Rat) (files : List StatusFile),
        ((files.filterMap (scanStatusFile probe now)).map (fun e => e.1.port)).Nodup →
        discoverAllUnityInstances probe now files
          = (sortByFreshnessDesc (files.filterMap (scanStatusFile probe now))).map
              (fun e => e.1))
    ∧ (∀ (probe : Int → Bool) (now : Rat) (f g : StatusFile)
        (ef eg : UnityInstanceInfo × Rat),
        scanStatusFile probe now f = some ef → scanStatusFile probe now g = some eg →
        ef.1.port = eg.1.port →
        (ef.2 < eg.2 → discoverAllUnityInstances probe now [f, g] = [eg.1])
        ∧ (eg.2 ≤ ef.2 → discoverAllUnityInstances probe now [f, g] = [ef.1])) := by
  refine ⟨?_, ?_, ?_, ?_, ?_⟩
  · intro probe now f d hparse halive
    refine ⟨?_, ?_, ?_⟩
    · constructor
      · intro hscan
        by_contra hcon
        have hcond : (d.reloading && decide (now - fileFreshness f d < 60)) = false := by
          rcases Bool.eq_false_or_eq_true d.reloading with hb | hb
          · simp only [hb, Bool.true_and, decide_eq_false_iff_not]
            intro hlt
            exact hcon ⟨hb, hlt⟩
          · simp [hb]
        simp [scanStatusFile, hparse, halive, hcond] at hscan
      · rintro ⟨hrel, hlt⟩
        simp [scanStatusFile, hparse, halive, hrel, hlt]
    · intro hrel
      simp [instanceOfFile, hrel]
    · intro hcon
      have hcond : (d.reloading && decide (now - fileFreshness f d < 60)) = false := by
        rcases Bool.eq_false_or_eq_true d.reloading with hb | hb
        · simp only [hb, Bool.true_and, decide_eq_false_iff_not]
          intro hlt
          exact hcon ⟨hb, hlt⟩
        · simp [hb]
      simp [scanStatusFile, hparse, halive, hcond]
  · intro probe now f d hparse halive hrel
    constructor
    · simp [scanStatusFile, hparse, halive]
    · simp [instanceOfFile, hrel]
  · intro probe now f hparse
    simp [scanStatusFile, hparse]
  · intro probe now files hnodup
    unfold discoverAllUnityInstances
    rw [fold_over_files, fold_insert_distinct _ _ (by simp) hnodup]
    simp only [List.nil_append, List.map_map]
    rw [show ((fun x => x.2) ∘ fun (e : UnityInstanceInfo × Rat) => (e.1.port, e)) = id
      from rfl]
    rw [List.map_id]
  · intro probe now f g ef eg hf hg hport
    constructor
    · intro hlt
      unfold discoverAllUnityInstances
      simp only [List.foldl_cons, List.foldl_nil, hf, hg]
      rw [show insertByPort [] ef = [(ef.1.port, ef)] by rfl]
      rw [show insertByPort [(ef.1.port, ef)] eg = [(eg.1.port, eg)] by
        rw [insertByPort_found [(ef.1.port, ef)] eg (ef.1.port, ef)
          (by simp [List.find?, hport])]
        rw [if_neg (by dsimp only; intro hle; linarith)]
        simp [hport]]
      simp [sortByFreshnessDesc, insertFreshDesc]
    · intro hle
      unfold discoverAllUnityInstances
      simp only [List.foldl_cons, List.foldl_nil, hf, hg]
      rw [show insertByPort [] ef = [(ef.1.port, ef)] by rfl]
      rw [show insertByPort [(ef.1.port, ef)] eg = [(ef.1.port, ef)] by
        rw [insertByPort_found [(ef.1.port, ef)] eg (ef.1.port, ef)
          (by simp [List.find?, hport])]
        rw [if_pos (by dsimp only; linarith)]]
      simp [sortByFreshnessDesc, insertFreshDesc]


def dRunning : StatusData :=
  { projectPath := "/proj/Game/Assets", unityPort := some 9999,
    reloading := false, lastHeartbeat := some 995 }

def dStale : StatusData :=
  { projectPath := "/proj/Game/Assets", unityPort := some 9999,
    reloading := false, lastHeartbeat := some 900 }

def dReloading : StatusData :=
  { projectPath := "/proj/Game/Assets", unityPort := some 9999,
    reloading := true, lastHeartbeat := some 995 }

def probeUp : Int → Bool := fun p => p == 9999

def probeDown : Int → Bool := fun _ => false

/-- Witness for C6: the three round-trip examples of §8 — a responsive
`port=9999, reloading=false` file is `running`; the same file with no
listener and a 100-second-old heartbeat is dropped; with `reloading=true`
and a 5-second-old heartbeat it is kept as `reloading`. -/
theorem C6_witness :
    (scanStatusFile probeUp 1000 ⟨"h9", 995, some dRunning⟩
        = some (instanceOfFile ⟨"h9", 995, some dRunning⟩ dRunning,
                fileFreshness ⟨"h9", 995, some dRunning⟩ dRunning)
      ∧ (instanceOfFile ⟨"h9", 995, some dRunning⟩ dRunning).status = "running")
    ∧ scanStatusFile probeDown 1000 ⟨"h9", 995, some dStale⟩ = none
    ∧ (scanStatusFile probeDown 1000 ⟨"h9", 995, some dReloading⟩
        = some (instanceOfFile ⟨"h9", 995, some dReloading⟩ dReloading,
                fileFreshness ⟨"h9", 995, some dReloading⟩ dReloading)
      ∧ (instanceOfFile ⟨"h9", 995, some dReloading⟩ dReloading).status = "reloading") :=
  ⟨C6_discovery_keep_drop.2.1 probeUp 1000 ⟨"h9", 995, some dRunning⟩ dRunning
     rfl (by decide) rfl,
   (C6_discovery_keep_drop.1 probeDown 1000 ⟨"h9", 995, some dStale⟩ dStale
     rfl (by decide)).2.2 (by decide),
   ⟨(C6_discovery_keep_drop.1 probeDown 1000 ⟨"h9", 995, some dReloading⟩ dReloading
      rfl (by decide)).1.mpr ⟨rfl, by norm_num [fileFreshness, dReloading]⟩,
    (C6_discovery_keep_drop.1 probeDown 1000 ⟨"h9", 995, some dReloading⟩ dReloading
      rfl (by decide)).2.1 rfl⟩⟩


/-! ### Preflight reload short-circuit (`UnityConnection.send_command`) -/

/-- The keys of a status file the preflight check reads: the `reloading`
flag and an optional `reason`. -/
structure PreflightStatus where
  reloading : Bool := false
  reason : Option String := none
  deriving Repr, DecidableEq

/-- `read_status_file` (lines 246-276): the input list carries each file's
stem and parse outcome, already sorted by mtime, most recent first (the
`sorted(..., key=mtime, reverse=True)` of the source).  With a target
hash, the first file whose stem ends with it is read (a parse failure
returns `none` for the whole call); otherwise the most recent file. -/
def readStatusFile (files : List (String × Option PreflightStatus))
    (targetHash : Option String) : Option PreflightStatus :=
  match files with
  | [] => none
  | f0 :: _ =>
    match targetHash with
    | some h =>
      match files.find? (fun f => pyEndsWith f.1 h) with
      | some f => f.2
      | none => f0.2
    | none => f0.2

/-- Hash suffix extracted from `instance_id` (`Project@hash`), lines
280-285. -/
def targetHashOf (instanceId : Option String) : Option String :=
  match instanceId with
  | none => none
  | some iid =>
    match splitAtFirstAt iid with
    | some p => if pyStrip p.2 == "" then none else some (pyStrip p.2)
    | none => none

/-- The response returned by the preflight short-circuit (lines 290-295):
note it carries no `data` payload. -/
def preflightBusyResp : MCPResp :=
  { success := false, error := some "Unity is reloading; please retry",
    hint := some "retry" }

/-- The preflight check of `send_command` (lines 287-297). -/
def sendCommandPreflight (files : List (String × Option PreflightStatus))
    (instanceId : Option String) : Option MCPResp :=
  match readStatusFile files (targetHashOf instanceId) with
  | some st =>
    if st.reloading || st.reason == some "reloading" then some preflightBusyResp
    else none
  | none => none

/-- `send_command` up to its first socket interaction: a preflight hit
returns immediately with zero socket sends; otherwise the retry/attempt
phase (abstracted as `attemptPhase`, which always sends at least once)
runs.  The second component counts socket sends. -/
def sendCommandRuns (files : List (String × Option PreflightStatus))
    (instanceId : Option String) (attemptPhase : Resp × Nat) : Resp × Nat :=
  match sendCommandPreflight files instanceId with
  | some r => (.mcp r, 0)
  | none => attemptPhase

/-- Counterexample for C7 as stated: at a concrete reloading status file
the short-circuit response has `hint="retry"` but carries no `data` at
all, so it has neither `data.reason` nor `data.retry_after_ms`. -/
theorem C7_counterexample :
    (sendCommandRuns [("unity-mcp-status-abc", some { reloading := true })] none
        (okDemo, 1)).1 = .mcp preflightBusyResp
    ∧ preflightBusyResp.data = none := by
  constructor
  · rfl
  · rfl

/-- C7 (amended): before the first send, a status file reporting
`reloading` (or `reason="reloading"`) makes `send_command` short-circuit
immediately — zero socket round trips — with a structured busy response
`success=false`, `hint="retry"`, error text from which the reason
extractor derives `reloading`; the response carries no
`data.reason`/`data.retry_after_ms` fields. -/
theorem C7_preflight_short_circuit
    (files : List (String × Option PreflightStatus)) (instanceId : Option String)
    (st : PreflightStatus) (attemptPhase : Resp × Nat)
    (hread : readStatusFile files (targetHashOf instanceId) = some st)
    (hrel : st.reloading = true ∨ st.reason = some "reloading") :
    sendCommandRuns files instanceId attemptPhase = (.mcp preflightBusyResp, 0)
    ∧ preflightBusyResp.success = false
    ∧ preflightBusyResp.hint = some "retry"
    ∧ extractResponseReason (.mcp preflightBusyResp) = some "reloading"
    ∧ preflightBusyResp.data = none := by
  refine ⟨?_, rfl, rfl, by decide, rfl⟩
  have hcond : (st.reloading || st.reason == some "reloading") = true := by
    rcases hrel with h | h
    · simp [h]
    · simp [h]
  simp [sendCommandRuns, sendCommandPreflight, hread, hcond]

/-- Witness for C7 (amended): the concrete reloading status file again. -/
theorem C7_preflight_short_circuit_witness :
    readStatusFile [("unity-mcp-status-abc", some { reloading := true })]
      (targetHashOf none) = some { reloading := true }
    ∧ sendCommandRuns [("unity-mcp-status-abc", some { reloading := true })] none
        (okDemo, 1) = (.mcp preflightBusyResp, 0) :=
  ⟨rfl,
   (C7_preflight_short_circuit [("unity-mcp-status-abc", some { reloading := true })]
     none { reloading := true } (okDemo, 1) rfl (Or.inl rfl)).1⟩


/-! ### Session resolution (`PluginHub._resolve_session_id` /
`send_command_for_instance`) -/

/-- Modelled from the spec: one registered plugin session of
`PluginRegistry` (the registry module is not among the transport
sources); §4.5's state machine assigns each session an id and a project
hash. -/
structure RegSession where
  sessionId : String
  projectHash : String
  deriving Repr, DecidableEq

/-- Modelled from the spec: `PluginRegistry.get_session_id_by_hash`
matches »by hash prefix using the Connection-Pool-style precedence« —
exact hash first, then a unique starts-with match. -/
def getSessionIdByHash (sessions : List RegSession) (h : String) : Option String :=
  match sessions.find? (fun s => s.projectHash == h) with
  | some s => some s.sessionId
  | none =>
    match sessions.filter (fun s => pyStartsWith s.projectHash h) with
    | [s] => some s.sessionId
    | _ => none

/-- `target_hash` extraction of `_resolve_session_id` (lines 388-394):
accept either a bare hash or `Name@hash` (split at the last `@`). -/
def sessionTargetHash (unityInstance : Option String) : Option String :=
  match unityInstance with
  | none => none
  | some ui =>
    match splitAtLastAt ui with
    | some p => if p.2 == "" then none else some p.2
    | none => some ui

/-- `_try_once` (lines 396-411): with a target, look it up by hash; with
none, auto-select a sole session, else report the ambiguous count. -/
def tryOnce (sessions : List RegSession) (targetHash : Option String) :
    Option String × Nat :=
  match targetHash with
  | some h => (getSessionIdByHash sessions h, sessions.length)
  | none =>
    match sessions with
    | [] => (none, 0)
    | [s] => (some s.sessionId, 1)
    | _ => (none, sessions.length)

/-- Outcome of `_resolve_session_id`: a session id, the
multiple-instances `RuntimeError`, or `NoUnitySessionError`. -/
inductive ResolveSessionOut where
  | ok (sessionId : String)
  | multipleInstances
  | noSession
  deriving Repr, DecidableEq

/-- The polling loop of `_resolve_session_id` (lines 413-458).
`sessionsAt k` is the registry contents at the `k`-th poll; the clock
advances by `sleepS` per iteration; the fuel (strictly more than the
≤ 600 possible iterations, since `sleepS ≥ 1/20` and the budget is
≤ 30s) only guards termination. -/
def resolveSessionLoop (sessionsAt : Nat → List RegSession) (target : Option String)
    (maxWaitS sleepS : Rat) :
    Nat → Nat → Rat → Option String × Nat → ResolveSessionOut
  | _, _, _, (some sid, _) => .ok sid
  | fuel, k, now, (none, count) =>
    if now < maxWaitS then
      if target.isNone && count > 1 then .multipleInstances
      else
        match fuel with
        | 0 => .noSession
        | fuel' + 1 =>
          resolveSessionLoop sessionsAt target maxWaitS sleepS fuel' (k + 1)
            (now + sleepS) (tryOnce (sessionsAt (k + 1)) target)
    else
      if target.isNone && count > 1 then .multipleInstances
      else .noSession

/-- `_resolve_session_id` (lines 360-458): clamp the wait budget to
`[0, 30]` seconds, derive the sleep `max 0.05 (min 0.25 (retry_ms/1000))`,
and poll until a session resolves or the deadline passes. -/
def resolveSessionId (sessionsAt : Nat → List RegSession) (unityInstance : Option String)
    (maxWaitRaw retryMs : Rat) : ResolveSessionOut :=
  let maxWaitS := max 0 (min maxWaitRaw 30)
  let sleepS := max (1/20) (min (1/4) (retryMs / 1000))
  let target := sessionTargetHash unityInstance
  resolveSessionLoop sessionsAt target maxWaitS sleepS 601 0 0
    (tryOnce (sessionsAt 0) target)

/-- The structured busy reply of `send_command_for_instance` when no
session resolves (lines 469-480). -/
def noSessionBusyResp : MCPResp :=
  { success := false, error := some "Unity session not available; please retry",
    hint := some "retry",
    data := some { reason := some "no_unity_session", retryAfterMs := some 250 } }

/-- Observable outcome of `send_command_for_instance` up to dispatch. -/
inductive SendForInstanceOut where
  | dispatched (sessionId : String)
  | busy (r : MCPResp)
  | raisedMultiple
  deriving Repr, DecidableEq

/-- `send_command_for_instance` (lines 460-480): only
`NoUnitySessionError` is converted to the structured busy reply; the
multiple-instances `RuntimeError` propagates. -/
def sendCommandForInstance (sessionsAt : Nat → List RegSession)
    (unityInstance : Option String) (maxWaitRaw retryMs : Rat) : SendForInstanceOut :=
  match resolveSessionId sessionsAt unityInstance maxWaitRaw retryMs with
  | .ok sid => .dispatched sid
  | .noSession => .busy noSessionBusyResp
  | .multipleInstances => .raisedMultiple

theorem resolveLoop_empty (sessionsAt : Nat → List RegSession) (target : Option String)
    (maxWaitS sleepS : Rat) (hempty : ∀ i, sessionsAt i = []) :
    ∀ (fuel k : Nat) (now : Rat),
      resolveSessionLoop sessionsAt target maxWaitS sleepS fuel k now
        (tryOnce (sessionsAt k) target) = .noSession := by
  have htry : ∀ k, tryOnce (sessionsAt k) target = (none, 0) := by
    intro k
    rw [hempty k]
    cases target with
    | none => rfl
    | some h => rfl
  intro fuel
  induction fuel with
  | zero =>
    intro k now
    rw [htry k]
    unfold resolveSessionLoop
    by_cases hn : now < maxWaitS
    · simp [hn]
    · simp [hn]
  | succ f ih =>
    intro k now
    rw [htry k]
    unfold resolveSessionLoop
    by_cases hn : now < maxWaitS
    · simp only [hn, if_true]
      have := ih (k + 1) (now + sleepS)
      simp only [gt_iff_lt, Nat.lt_irrefl, Bool.and_false, Bool.false_eq_true, if_false]
      simpa using this
    · simp [hn]


/-- C8: with no hint a sole registered session is auto-selected; a hint
is matched by hash, accepting a bare hash or `Name@hash`; with no session
ever available the resolver polls with sleeps in `[0.05s, 0.25s]` up to
the budget `max 0 (min raw 30)` (default raw 2s) and then
`send_command_for_instance` returns the structured busy response with
`data.reason="no_unity_session"` and `retry_after_ms=250` instead of
raising; with multiple sessions and no hint it raises the
multiple-instances error instructing explicit selection. -/
theorem C8_session_resolution :
    (∀ (sessionsAt : Nat → List RegSession) (s : RegSession) (maxWaitRaw retryMs : Rat),
        sessionsAt 0 = [s] →
        resolveSessionId sessionsAt none maxWaitRaw retryMs = .ok s.sessionId)
    ∧ (∀ (sessionsAt : Nat → List RegSession) (ui h sid : String)
          (maxWaitRaw retryMs : Rat),
        sessionTargetHash (some ui) = some h →
        getSessionIdByHash (sessionsAt 0) h = some sid →
        resolveSessionId sessionsAt (some ui) maxWaitRaw retryMs = .ok sid)
    ∧ sessionTargetHash (some "ha") = some "ha"
    ∧ sessionTargetHash (some "Game@ha") = some "ha"
    ∧ (∀ (sessionsAt : Nat → List RegSession) (unityInstance : Option String)
          (maxWaitRaw retryMs : Rat),
        (∀ i, sessionsAt i = []) →
        resolveSessionId sessionsAt unityInstance maxWaitRaw retryMs = .noSession
        ∧ sendCommandForInstance sessionsAt unityInstance maxWaitRaw retryMs
            = .busy noSessionBusyResp
        ∧ noSessionBusyResp.hint = some "retry"
        ∧ noSessionBusyResp.data
            = some { reason := some "no_unity_session", retryAfterMs := some 250 })
    ∧ (∀ retryMs : Rat, 1/20 ≤ max (1/20) (min (1/4) (retryMs / 1000))
        ∧ max (1/20) (min (1/4) (retryMs / 1000)) ≤ 1/4)
    ∧ (∀ maxWaitRaw : Rat, 0 ≤ max 0 (min maxWaitRaw 30)
        ∧ max 0 (min maxWaitRaw 30) ≤ 30)
    ∧ (∀ (sessionsAt : Nat → List RegSession) (s1 s2 : RegSession)
          (rest : List RegSession) (maxWaitRaw retryMs : Rat),
        sessionsAt 0 = s1 :: s2 :: rest →
        resolveSessionId sessionsAt none maxWaitRaw retryMs = .multipleInstances
        ∧ sendCommandForInstance sessionsAt none maxWaitRaw retryMs = .raisedMultiple) := by
  refine ⟨?_, ?_, rfl, by decide, ?_, ?_, ?_, ?_⟩
  · intro sessionsAt s maxWaitRaw retryMs h0
    simp [resolveSessionId, sessionTargetHash, h0, tryOnce, resolveSessionLoop]
  · intro sessionsAt ui h sid maxWaitRaw retryMs ht hg
    unfold resolveSessionId
    simp only [sessionTargetHash] at ht ⊢
    rw [ht]
    simp [tryOnce, hg, resolveSessionLoop]
  · intro sessionsAt unityInstance maxWaitRaw retryMs hempty
    have hres : resolveSessionId sessionsAt unityInstance maxWaitRaw retryMs = .noSession := by
      unfold resolveSessionId
      exact resolveLoop_empty sessionsAt (sessionTargetHash unityInstance) _ _ hempty 601 0 0
    refine ⟨hres, ?_, rfl, rfl⟩
    unfold sendCommandForInstance
    rw [hres]
  · intro retryMs
    exact ⟨le_max_left _ _, max_le (by norm_num) (min_le_left _ _)⟩
  · intro maxWaitRaw
    exact ⟨le_max_left _ _, max_le (by norm_num) (min_le_right _ _)⟩
  · intro sessionsAt s1 s2 rest maxWaitRaw retryMs h0
    have hres : resolveSessionId sessionsAt none maxWaitRaw retryMs = .multipleInstances := by
      unfold resolveSessionId
      simp only [sessionTargetHash, h0, tryOnce]
      by_cases hn : (0:Rat) < max 0 (min maxWaitRaw 30)
      · simp [resolveSessionLoop, hn]
      · simp [resolveSessionLoop, hn]
    refine ⟨hres, ?_⟩
    unfold sendCommandForInstance
    rw [hres]

/-- Witness for C8: a sole session is auto-selected with no hint. -/
theorem C8_witness :
    ((fun _ : Nat => [RegSession.mk "sid1" "ha"]) 0 = [RegSession.mk "sid1" "ha"])
    ∧ resolveSessionId (fun _ => [RegSession.mk "sid1" "ha"]) none 2 250
        = .ok (RegSession.mk "sid1" "ha").sessionId :=
  ⟨rfl,
   C8_session_resolution.1 (fun _ => [RegSession.mk "sid1" "ha"])
     (RegSession.mk "sid1" "ha") 2 250 rfl⟩

end UnityMcp

